import Mathlib

/-!
# Verification of the PulseAudio source / source-output / sink-input core
  and the ALSA mixer-path abstraction

Shallow embedding of the code in `src/unnamed/part_000` (a concatenation of
`pulsecore/source.c`, `pulsecore/source-output.c` and `pulsecore/sink-input.c`)
and `src/modules/alsa/alsa-mixer.c`.  Pure helper functions from files of this
repository that are not part of the source tree under scrutiny (notably
`pulse/volume.c`, `pulsecore/memblockq.c`, `pulse/sample.h`, `pulse/def.h`,
`pulsecore/source.h`) are modelled from the specification; each such
definition carries a doc comment saying so.
-/

namespace Pulse

/-- Modelled from the spec: `PA_VOLUME_NORM` (pulse/volume.h, not under src/).
"Channel volume is a per-channel array of linear values over
[MUTED=0, NORM=0x10000, MAX]". -/
def PA_VOLUME_NORM : Nat := 0x10000

/-- Modelled from the spec: `PA_VOLUME_MUTED` (pulse/volume.h, not under src/). -/
def PA_VOLUME_MUTED : Nat := 0

/-- A channel volume (`pa_cvolume`): per-channel array of linear volume values;
the channel count is the list length. -/
abbrev CVolume := List Nat

/-- A channel map (`pa_channel_map`): ordered list of abstract channel
positions; positions are represented by naturals. -/
abbrev ChannelMap := List Nat

/-- Modelled from the spec: `pa_cvolume_max` (pulse/volume.c, not under src/):
the largest single-channel value of a channel volume. -/
def pa_cvolume_max (v : CVolume) : Nat := v.foldr max 0

/-- Modelled from the spec: `pa_cvolume_merge` (pulse/volume.c, not under
src/): the channelwise maximum of two channel volumes. -/
def pa_cvolume_merge (a b : CVolume) : CVolume := List.zipWith max a b

/-- Modelled from the spec: `pa_cvolume_is_norm` (pulse/volume.c, not under
src/): true iff every channel is exactly `PA_VOLUME_NORM` (0 dB). -/
def pa_cvolume_is_norm (v : CVolume) : Bool := v.all (· == PA_VOLUME_NORM)

/-- Modelled from the spec: `pa_cvolume_avg` (pulse/volume.c, not under src/):
the average ("average volume" in the deferred-volume push rule) of the
channel values, with integer division. -/
def pa_cvolume_avg (v : CVolume) : Nat := v.sum / v.length

/-- Modelled from the spec: `pa_sw_volume_multiply` (pulse/volume.c, not under
src/): fixed-point multiplication of two linear volumes with `PA_VOLUME_NORM`
as unity (ratios multiply channelwise). -/
def pa_sw_volume_multiply (a b : Nat) : Nat :=
  (a * b + PA_VOLUME_NORM / 2) / PA_VOLUME_NORM

/-- Modelled from the spec: `pa_sw_volume_divide` (pulse/volume.c, not under
src/): fixed-point division of two linear volumes with `PA_VOLUME_NORM` as
unity; division by a muted volume yields muted. -/
def pa_sw_volume_divide (a b : Nat) : Nat :=
  if b = 0 then 0 else (a * PA_VOLUME_NORM + b / 2) / b

/-- Modelled from the spec: `pa_sw_cvolume_multiply` (pulse/volume.c, not
under src/): channelwise `pa_sw_volume_multiply`. -/
def pa_sw_cvolume_multiply (a b : CVolume) : CVolume :=
  List.zipWith pa_sw_volume_multiply a b

/-- Modelled from the spec: `pa_sw_cvolume_divide` (pulse/volume.c, not under
src/): channelwise `pa_sw_volume_divide`. -/
def pa_sw_cvolume_divide (a b : CVolume) : CVolume :=
  List.zipWith pa_sw_volume_divide a b

/-- Modelled from the spec: `pa_cvolume_scale` (pulse/volume.c, not under
src/): rescale a channel volume so that its maximum becomes `m` (used to
broadcast a mono volume onto a multichannel reference volume). -/
def pa_cvolume_scale (v : CVolume) (m : Nat) : CVolume :=
  let mx := pa_cvolume_max v
  if mx = 0 then List.replicate v.length m
  else v.map (fun x => x * m / mx)

/-- Modelled from the spec: `pa_cvolume_reset` (pulse/volume.h, not under
src/): set `n` channels all to `PA_VOLUME_NORM` (0 dB). -/
def pa_cvolume_reset (n : Nat) : CVolume := List.replicate n PA_VOLUME_NORM

/-- Modelled from the spec: `pa_cvolume_mute` (pulse/volume.h, not under
src/): set `n` channels all to `PA_VOLUME_MUTED`. -/
def pa_cvolume_mute (n : Nat) : CVolume := List.replicate n PA_VOLUME_MUTED

/-- The type of the nontrivial core of `pa_cvolume_remap`: an oracle taking a
volume, a source map and a destination map.  The development is parametric in
it; only the behaviour on equal maps (a no-op, made explicit in
`pa_cvolume_remap` below) is needed by the theorems. -/
abbrev RemapCore := CVolume → ChannelMap → ChannelMap → CVolume

/-- Modelled from the spec: `pa_cvolume_remap` (pulse/volume.c, not under
src/): re-express a channel volume given over channel map `fromM` over
channel map `toM`.  Remapping between identical maps leaves the volume
unchanged; the nontrivial case is the oracle `rc`. -/
def pa_cvolume_remap (rc : RemapCore) (v : CVolume) (fromM toM : ChannelMap) : CVolume :=
  if fromM == toM then v else rc v fromM toM

/-- Modelled from the spec, §7: `PA_ERR_NOENTITY` ("NO_ENTITY (port or mapping
not found)", pulse/def.h, not under src/). -/
def PA_ERR_NOENTITY : Int := 5

/-- Modelled from the spec, §7: `PA_ERR_NOTIMPLEMENTED` ("NOT_IMPLEMENTED
(hook not wired)", pulse/def.h, not under src/). -/
def PA_ERR_NOTIMPLEMENTED : Int := 23

/-- Modelled from the spec, §6: `PA_RATE_MAX` ("8000 Hz to a configured
maximum", pulse/sample.h, not under src/). -/
def PA_RATE_MAX : Nat := 48000 * 8

/-! ## Rate update (`pa_source_update_rate`, part_000 lines 971-1038) -/

/-- Device state machine states (`pa_source_state_t`). -/
inductive SourceState where
  | init | running | idle | suspended | unlinked
deriving DecidableEq, Repr

/-- The slice of `pa_source` state read and written by
`pa_source_update_rate`.  The implementor's `update_rate` callback is an
oracle: `has_update_rate` is whether the callback is wired,
`impl_update_rate r` is whether the implementor accepts the switch to rate
`r` (on success the implementor installs `r` as `sample_spec.rate`). -/
structure RateSource where
  has_update_rate : Bool
  impl_update_rate : Nat → Bool
  default_sample_rate : Nat
  alternate_sample_rate : Nat
  state : SourceState
  sample_spec_rate : Nat
  n_outputs : Nat
  n_corked : Nat

/-- `pa_source_used_by` (part_000 lines 1887-1898): number of attached
outputs that are not corked. -/
def pa_source_used_by (s : RateSource) : Nat := s.n_outputs - s.n_corked

/-- `pa_source_update_rate` (part_000 lines 971-1038).  Returns the success
flag and the resulting `sample_spec.rate`.  Suspend/resume side effects and
the re-resampling of corked outputs mutate no state modelled here. -/
def pa_source_update_rate (s : RateSource) (rate : Nat) (passthrough : Bool) :
    Bool × Nat :=
  if s.has_update_rate then
    if s.default_sample_rate == s.alternate_sample_rate then (false, s.sample_spec_rate)
    else if s.state == .running then (false, s.sample_spec_rate)
    else if rate < 8000 || rate > PA_RATE_MAX then (false, s.sample_spec_rate)
    else
      let desired_rate :=
        if !passthrough then
          let use_alternate :=
            if s.default_sample_rate % 4000 != 0 then
              s.alternate_sample_rate % 4000 == 0 && rate % 4000 == 0
            else
              s.alternate_sample_rate % 11025 == 0 && rate % 11025 == 0
          if use_alternate then s.alternate_sample_rate else s.default_sample_rate
        else rate
      if desired_rate == s.sample_spec_rate then (false, s.sample_spec_rate)
      else if !passthrough && pa_source_used_by s > 0 then (false, s.sample_spec_rate)
      else if s.impl_update_rate desired_rate then (true, desired_rate)
      else (false, s.sample_spec_rate)
  else (false, s.sample_spec_rate)

/-! ## Port switching (`pa_source_set_port`, part_000 lines 2586-2630) -/

/-- The slice of `pa_source` state read and written by `pa_source_set_port`.
`set_port_ret name` is the implementor's `set_port` callback status for the
port called `name`; `msg_ret name` is the status returned by the IO thread
for the `SET_PORT` round trip used under `PA_SOURCE_DEFERRED_VOLUME`. -/
structure PortSource where
  has_set_port : Bool
  ports : List String
  active_port : Option String
  save_port : Bool
  deferred_volume : Bool
  set_port_ret : String → Int
  msg_ret : String → Int

/-- `pa_source_set_port` (part_000 lines 2586-2630).  Returns the status code
and the resulting source state. -/
def pa_source_set_port (s : PortSource) (name : Option String) (save : Bool) :
    Int × PortSource :=
  if !s.has_set_port then (-PA_ERR_NOTIMPLEMENTED, s)
  else
    match name with
    | none => (-PA_ERR_NOENTITY, s)
    | some n =>
      if !s.ports.contains n then (-PA_ERR_NOENTITY, s)
      else if s.active_port == some n then
        (0, { s with save_port := s.save_port || save })
      else
        let ret := if s.deferred_volume then s.msg_ret n else s.set_port_ret n
        if ret < 0 then (-PA_ERR_NOENTITY, s)
        else (0, { s with active_port := some n, save_port := save })

/-! ## Stream moving (`pa_source_output_may_move_to`, part_000 lines 4040-4079)

Sources and source outputs are identified by their stable index
(`s->index`, `o->index`); pointer equality in the C code is index equality
here.  The upward `output_from_master` chain of a filter source is embedded
structurally: a source carries, if it is a filter, the index of its
`output_from_master` stream together with that stream's (possibly absent)
source. -/

/-- A source as seen by the filter-cycle walk: its index, the size of its
`outputs` idxset, and its `output_from_master` link (stream index and the
stream's source, `none` while that stream is being moved). -/
inductive UpSource where
  | mk (index : Nat) (outputs_size : Nat)
       (output_from_master : Option (Nat × Option UpSource))
deriving Repr

def UpSource.index : UpSource → Nat
  | .mk i _ _ => i

def UpSource.outputs_size : UpSource → Nat
  | .mk _ n _ => n

/-- `find_filter_source_output` (part_000 lines 4040-4049): walk the
`output_from_master` chain upward from `s`; true iff the stream with index
`target` occurs on it. -/
def find_filter_source_output (target : Nat) : UpSource → Bool
  | .mk _ _ none => false
  | .mk _ _ (some (oid, srcOpt)) =>
    if oid == target then true
    else
      match srcOpt with
      | none => false
      | some s' => find_filter_source_output target s'

/-- The slice of `pa_source_output` state read by
`pa_source_output_may_move(_to)`: the stream's index, its current source's
index, the `PA_SOURCE_OUTPUT_DONT_MOVE` flag, the `direct_on_input` bond and
the optional `may_move_to` callback (an oracle over the destination index). -/
structure MoveOutput where
  index : Nat
  source_index : Nat
  dont_move : Bool
  direct_on_input : Bool
  has_may_move_to_cb : Bool
  may_move_to_cb : Nat → Bool

/-- `pa_source_output_may_move` (part_000 lines 4025-4038). -/
def pa_source_output_may_move (o : MoveOutput) : Bool :=
  !o.dont_move && !o.direct_on_input

/-- `pa_source_output_may_move_to` (part_000 lines 4052-4079).
`maxOutputs` is `PA_MAX_OUTPUTS_PER_SOURCE` (pulsecore/source.h, not under
src/; the spec §7 calls exceeding it `TOO_LARGE`), kept as a parameter. -/
def pa_source_output_may_move_to (o : MoveOutput) (dest : UpSource)
    (maxOutputs : Nat) : Bool :=
  if dest.index == o.source_index then true
  else if !pa_source_output_may_move o then false
  else if find_filter_source_output o.index dest then false
  else if dest.outputs_size ≥ maxOutputs then false
  else if o.has_may_move_to_cb then o.may_move_to_cb dest.index
  else true

/-! ## ALSA path probing (`pa_alsa_path_probe` volume pass,
alsa-mixer.c lines 2649-2704)

`element_probe` talks to the hardware; the elements below are taken in their
post-`element_probe` state (each successfully probed, with its `volume_use`,
`has_dB` and integer range as the probe left them).  The jack pass, the
required-any check and the dB-range bookkeeping in doubles do not influence
which `volume_use` each element ends up with and are not modelled; the loop
below is the exact `volume_use` / path-flag logic of lines 2649-2704. -/

inductive AlsaVolumeUse where
  | ignore | merge | off | zero | constant
deriving DecidableEq, Repr

inductive AlsaSwitchUse where
  | ignore | mute | off | on | select
deriving DecidableEq, Repr

inductive AlsaEnumerationUse where
  | ignore | select
deriving DecidableEq, Repr

/-- The slice of `pa_alsa_element` state driving the volume pass of
`pa_alsa_path_probe`. -/
structure ProbeElem where
  volume_use : AlsaVolumeUse
  has_dB : Bool
  switch_use : AlsaSwitchUse
  min_volume : Int
  max_volume : Int
deriving DecidableEq, Repr

/-- The path-level flags accumulated by the volume pass of
`pa_alsa_path_probe`. -/
structure ProbePathFlags where
  has_volume : Bool := false
  has_dB : Bool := false
  has_mute : Bool := false
  min_volume : Int := 0
  max_volume : Int := 0
deriving DecidableEq, Repr

/-- One iteration of the `PA_LLIST_FOREACH(e, p->elements)` loop of
`pa_alsa_path_probe` (alsa-mixer.c lines 2649-2704), after `element_probe`
succeeded on `e`: the `ignore_dB` override, the `volume_use` demotions and
the path-flag updates.  Returns the updated path flags and element. -/
def path_probe_step (ignore_dB : Bool) (p : ProbePathFlags) (e : ProbeElem) :
    ProbePathFlags × ProbeElem :=
  let e := if ignore_dB then { e with has_dB := false } else e
  let (p, e) :=
    if e.volume_use == .merge then
      let p := if !p.has_volume then
          { p with min_volume := e.min_volume, max_volume := e.max_volume }
        else p
      let (p, e) :=
        if e.has_dB then
          if !p.has_volume then ({ p with has_dB := true }, e)
          else if p.has_dB then (p, e)
          else (p, { e with volume_use := .zero })
        else if p.has_volume then (p, { e with volume_use := .ignore })
        else (p, e)
      ({ p with has_volume := true }, e)
    else (p, e)
  if e.switch_use == .mute then ({ p with has_mute := true }, e)
  else (p, e)

/-- The whole element loop of `pa_alsa_path_probe`: fold `path_probe_step`
over the element list, collecting the updated elements. -/
def path_probe_elements (ignore_dB : Bool) :
    ProbePathFlags → List ProbeElem → ProbePathFlags × List ProbeElem
  | p, [] => (p, [])
  | p, e :: rest =>
    let (p', e') := path_probe_step ignore_dB p e
    let (p'', rest') := path_probe_elements ignore_dB p' rest
    (p'', e' :: rest')

/-! ## Deferred hardware volume
(`pa_source_volume_change_push` / `pa_source_volume_change_apply`,
part_000 lines 2654-2777)

Scheduled times (`pa_usec_t`) are 64-bit unsigned microsecond counts; the
push rule adds and subtracts the safety margin on them with C unsigned
wraparound, made explicit below.  The pending-change list
`s->thread_info.volume_changes` is kept head-first (the head is applied
first, `volume_changes_tail` is the last list entry). -/

/-- Word size of `pa_usec_t`. -/
def USEC_MOD : Nat := 2 ^ 64

/-- 64-bit unsigned addition, as in `nc->at + safety_margin`. -/
def addU64 (a b : Nat) : Nat := (a + b) % USEC_MOD

/-- 64-bit unsigned subtraction, as in `nc->at - safety_margin`. -/
def subU64 (a b : Nat) : Nat := (a + (USEC_MOD - b % USEC_MOD)) % USEC_MOD

/-- A pending hardware volume change (`pa_source_volume_change`): the
scheduled time `sched` (the struct's `at` field) and the hardware volume. -/
structure VolChange where
  sched : Nat
  hw_volume : CVolume
deriving DecidableEq, Repr

/-- The slice of source state used by the deferred-volume queue:
`thread_info.volume_change_safety_margin`, the pending list (head applied
first) and `thread_info.current_hw_volume`. -/
structure VolChangeState where
  safety_margin : Nat
  changes : List VolChange
  current_hw_volume : CVolume
deriving DecidableEq, Repr

/-- The reverse scan of `pa_source_volume_change_push` (part_000 lines
2678-2695), on the reversed pending list (tail of the queue first).  For the
new change with average volume `avgNc` and unadjusted time `base`: walking
from the tail, break at the first entry `c` against which the new change must
be shifted (up past `c` when the volume rises, down past `c` when it falls),
returning the kept part of the reversed list (from `c` to the head) and the
shifted time; `none` when the scan walks off the head. -/
def volume_change_scan (safety avgNc base : Nat) :
    List VolChange → Option (List VolChange × Nat)
  | [] => none
  | c :: earlier =>
    if avgNc > pa_cvolume_avg c.hw_volume then
      if addU64 base safety > c.sched then some (c :: earlier, addU64 base safety)
      else volume_change_scan safety avgNc base earlier
    else
      if subU64 base safety > c.sched then some (c :: earlier, subU64 base safety)
      else volume_change_scan safety avgNc base earlier

/-- `pa_source_volume_change_push` (part_000 lines 2654-2720).  The new
change's hardware volume is `real_volume / soft_volume`; its unadjusted
scheduled time `base` stands for
`pa_source_get_latency_within_thread(s) + pa_rtclock_now() +
s->thread_info.volume_change_extra_delay` (clock oracle).  After insertion
every change queued later than the new one is discarded, so the new change
always becomes the tail. -/
def pa_source_volume_change_push (s : VolChangeState) (base : Nat)
    (real_volume soft_volume : CVolume) : VolChangeState :=
  let hw := pa_sw_cvolume_divide real_volume soft_volume
  if s.changes.isEmpty && hw == s.current_hw_volume then s
  else
    match volume_change_scan s.safety_margin (pa_cvolume_avg hw) base s.changes.reverse with
    | some (keptRev, at') =>
      { s with changes := keptRev.reverse ++ [⟨at', hw⟩] }
    | none =>
      let at' :=
        if pa_cvolume_avg hw > pa_cvolume_avg s.current_hw_volume then
          addU64 base s.safety_margin
        else
          subU64 base s.safety_margin
      { s with changes := [⟨at', hw⟩] }

/-- `pa_source_volume_change_apply` (part_000 lines 2736-2777): dequeue and
commit every pending change whose scheduled time is `≤ now` (the while loop
at line 2752), in queue order.  Returns the resulting state and the list of
changes applied by this tick, in the order they were written to the
hardware. -/
def pa_source_volume_change_apply (s : VolChangeState) (now : Nat) :
    VolChangeState × List VolChange :=
  let applied := s.changes.takeWhile (fun c => now ≥ c.sched)
  let rest := s.changes.dropWhile (fun c => now ≥ c.sched)
  let hw := applied.foldl (fun _ c => c.hw_volume) s.current_hw_volume
  ({ s with changes := rest, current_hw_volume := hw }, applied)

/-- A sequence of `pa_source_volume_change_push` calls (each with its clock
reading and volume pair), folded over the state. -/
def run_pushes (s : VolChangeState) :
    List (Nat × CVolume × CVolume) → VolChangeState
  | [] => s
  | (base, rv, sv) :: rest =>
    run_pushes (pa_source_volume_change_push s base rv sv) rest

/-- A sequence of `pa_source_volume_change_apply` ticks, collecting all
changes applied, in application order. -/
def run_applies (s : VolChangeState) : List Nat → VolChangeState × List VolChange
  | [] => (s, [])
  | now :: rest =>
    let r := pa_source_volume_change_apply s now
    let r' := run_applies r.1 rest
    (r'.1, r.2 ++ r'.2)

/-! ## The capture push path (`pa_source_output_push`,
part_000 lines 3575-3691)

The delay queue `o->thread_info.delay_memblockq` is modelled from the spec
("backpressure via delay queue", §2; "Dequeue from the delay queue any excess
over limit", §4.3) as an unbounded FIFO of chunk lengths in bytes of the
source sample spec; `pa_memblockq` (pulsecore/memblockq.c) is not under src/
and its overflow path (a seek that the code only logs) is not modelled.  The
volume processing applied to each dequeued chunk (mute / soft-volume /
`volume_factor_source`, lines 3635-3661) transforms sample data in place and
neither the amount dequeued nor the amount handed to `o->push`, so the model
tracks chunk lengths; with a resampler the chunk handed on is additionally
capped at the resampler's maximum block size `mbs` (line 3670). -/

/-- The slice of source-output state read by `pa_source_output_push`.
`monitor_of_latency` is `some lat` when the owning source is a monitor
source, `lat` being `pa_sink_get_latency_within_thread` of the monitored
sink; `usec_to_bytes` is the `pa_usec_to_bytes` conversion oracle for the
source sample spec. -/
structure PushOutput where
  has_push : Bool
  corked : Bool
  has_process_rewind : Bool
  source_max_rewind : Nat
  monitor_of_latency : Option Nat
  usec_to_bytes : Nat → Nat
  has_resampler : Bool
  resampler_mbs : Nat
  delay_memblockq : List Nat

/-- The delay-queue retention limit computed by `pa_source_output_push`
(part_000 lines 3597 and 3602-3619): `0` when the stream implements
`process_rewind`, otherwise the source's `max_rewind`, lowered to the byte
equivalent of the monitored sink's latency when this source is a monitor and
that is smaller. -/
def push_limit (o : PushOutput) : Nat :=
  let limit := if o.has_process_rewind then 0 else o.source_max_rewind
  if limit > 0 then
    match o.monitor_of_latency with
    | some latency =>
      let n := o.usec_to_bytes latency
      if n < limit then n else limit
    | none => limit
  else limit

/-- The length to which the head chunk of the delay queue is capped in one
iteration of the dequeue loop (part_000 lines 3630-3631 and 3670-3671):
the excess over the retention limit, and the resampler's maximum block size
when resampling. -/
def dequeue_take (useMbs : Bool) (mbs h excess : Nat) : Nat :=
  if useMbs then min (min h excess) mbs else min h excess

theorem dequeue_take_le_head (useMbs : Bool) (mbs h excess : Nat) :
    dequeue_take useMbs mbs h excess ≤ h := by
  unfold dequeue_take; split <;> omega

theorem delay_queue_dec (useMbs : Bool) (mbs limit h : Nat) (t : List Nat)
    (_hq : ¬ dequeue_take useMbs mbs h ((h :: t).sum - limit) = 0) :
    (if h - dequeue_take useMbs mbs h ((h :: t).sum - limit) = 0 then t
     else (h - dequeue_take useMbs mbs h ((h :: t).sum - limit)) :: t).sum
      < (h :: t).sum := by
  have hle := dequeue_take_le_head useMbs mbs h ((h :: t).sum - limit)
  split <;> simp only [List.sum_cons] at * <;> omega

/-- The dequeue loop of `pa_source_output_push` (part_000 lines 3622-3690):
while the queue holds more than `limit` bytes, peek the head chunk, cap it at
the excess (and at `mbs` when resampling), hand it on, and drop it from the
queue.  Returns the final queue and the dequeued chunk lengths in delivery
order.  The C code asserts `qchunk.length > 0`; a zero-length head chunk
(impossible for a real memblockq) stops the loop here. -/
def delay_queue_loop (limit mbs : Nat) (useMbs : Bool) (q : List Nat) :
    List Nat × List Nat :=
  match q with
  | [] => ([], [])
  | h :: t =>
    if (h :: t).sum > limit then
      if _hq : dequeue_take useMbs mbs h ((h :: t).sum - limit) = 0 then (h :: t, [])
      else
        ((delay_queue_loop limit mbs useMbs
            (if h - dequeue_take useMbs mbs h ((h :: t).sum - limit) = 0 then t
             else (h - dequeue_take useMbs mbs h ((h :: t).sum - limit)) :: t)).1,
         dequeue_take useMbs mbs h ((h :: t).sum - limit)
           :: (delay_queue_loop limit mbs useMbs
            (if h - dequeue_take useMbs mbs h ((h :: t).sum - limit) = 0 then t
             else (h - dequeue_take useMbs mbs h ((h :: t).sum - limit)) :: t)).2)
    else (h :: t, [])
  termination_by q.sum
  decreasing_by
    exact delay_queue_dec _ _ _ _ _ ‹_›

/-- `pa_source_output_push` (part_000 lines 3575-3691): append the incoming
chunk to the delay queue, compute the retention limit, and run the dequeue
loop.  Returns the final delay queue and the dequeued chunk lengths handed
to `o->push` (after per-chunk volume processing / resampling). -/
def pa_source_output_push (o : PushOutput) (chunk : Nat) :
    List Nat × List Nat :=
  if !o.has_push || o.corked then (o.delay_memblockq, [])
  else
    let q := o.delay_memblockq ++ [chunk]
    delay_queue_loop (push_limit o) o.resampler_mbs o.has_resampler q

/-! ## Rewind requests (`pa_sink_input_request_rewind`,
part_000 lines 6603-6691)

`size_t` quantities are naturals below; `(size_t) -1`, the sentinel stored in
`thread_info.rewrite_nbytes` by a non-rewrite request, is `SIZE_MAX`. -/

/-- `(size_t) -1`. -/
def SIZE_MAX : Nat := 2 ^ 64 - 1

/-- The slice of sink-input state read and written by
`pa_sink_input_request_rewind`.  `res_request` and `res_result` are the
resampler's sink-domain-to-stream-domain and stream-domain-to-sink-domain
byte conversions (`pa_resampler_request` / `pa_resampler_result`, oracles);
`render_memblockq_length` is the byte length of the rendered-but-unplayed
data. -/
structure RewindInput where
  corked : Bool
  rewrite_nbytes : Nat
  rewrite_flush : Bool
  dont_rewind_render : Bool
  playing_for : Nat
  render_memblockq_length : Nat
  sink_max_rewind : Nat
  has_resampler : Bool
  res_request : Nat → Nat
  res_result : Nat → Nat

/-- `pa_sink_input_request_rewind` (part_000 lines 6603-6691).  Returns the
updated stream state and, when the sink was notified, the byte amount passed
to `pa_sink_request_rewind`. -/
def pa_sink_input_request_rewind (i : RewindInput) (nbytes₀ : Nat)
    (rewrite flush dont_rewind_render : Bool) : RewindInput × Option Nat :=
  if i.corked then (i, none)
  else
    let nbytes₁ := max i.rewrite_nbytes nbytes₀
    let lbq := if rewrite then i.render_memblockq_length else 0
    let nbytes₂ :=
      if nbytes₁ = 0 then
        let n := i.sink_max_rewind + lbq
        if i.has_resampler then i.res_request n else n
      else nbytes₁
    let (nbytes₃, rewrite') :=
      if i.rewrite_nbytes ≠ SIZE_MAX then
        if rewrite then
          let n := if nbytes₂ > i.playing_for then i.playing_for else nbytes₂
          (n, n)
        else (nbytes₂, SIZE_MAX)
      else (nbytes₂, i.rewrite_nbytes)
    let i' := { i with
      rewrite_nbytes := rewrite'
      rewrite_flush := i.rewrite_flush || flush
      dont_rewind_render := i.dont_rewind_render || dont_rewind_render }
    if nbytes₃ ≠ SIZE_MAX then
      let n := if i.has_resampler then i.res_result nbytes₃ else nbytes₃
      if n > lbq then (i', some (n - lbq)) else (i', some 0)
    else (i', none)

/-! ## Flat volume over the volume-sharing tree
(`pa_source_set_volume` and helpers, part_000 lines 1162-1628)

A source together with the sources sharing volume with it forms a tree:
each output of a source either feeds an ordinary stream or is the
`output_from_master` of a filter source one level down
(`o->destination_source`).  The tree is embedded as `STree`; the fields of
`pa_source` / `pa_source_output` not read by the volume algebra are omitted.

`pa_source_flat_volume_enabled` (part_000 lines 1106-1115) resolves, for
every source of one sharing tree, to the root's `PA_SOURCE_FLAT_VOLUME`
flag (a sharing source never carries the flag itself); it is the root's
`flat_volume` field here and is passed down the recursions unchanged.
Subscription events and the `volume_changed` stream callbacks only notify;
they are not modelled.  `pa_source_set_volume` is modelled as invoked on the
root of the tree (for a sharing source the C code first walks to the root
via `pa_source_get_master` and operates there). -/

/-- The slice of `pa_source` state used by the volume algebra.
`monitor_of_passthrough` is `none` for a source that is not a monitor, and
`some b` for the monitor of a sink whose `pa_sink_is_passthrough` (sink.c,
not under src/) currently returns `b`.  `has_set_volume_cb` is whether the
implementor wired a `set_volume` callback (whose own optional adjustment of
`soft_volume` is outside the modelled state). -/
structure SrcData where
  share : Bool
  flat_volume : Bool
  channel_map : ChannelMap
  reference_volume : CVolume
  real_volume : CVolume
  soft_volume : CVolume
  save_volume : Bool
  monitor_of_passthrough : Option Bool
  has_set_volume_cb : Bool
  deferred_volume : Bool
deriving DecidableEq, Repr

/-- The slice of `pa_source_output` state used by the volume algebra.
`channels` is `o->sample_spec.channels`. -/
structure OutData where
  channel_map : ChannelMap
  channels : Nat
  volume : CVolume
  reference_ratio : CVolume
  real_ratio : CVolume
  soft_volume : CVolume
  volume_factor : CVolume
deriving DecidableEq, Repr

/-- A volume-sharing tree: a source with its outputs; an output paired with
`some child` is the `output_from_master` of the filter source `child`
(`o->destination_source = child`), one paired with `none` feeds an ordinary
stream. -/
inductive STree where
  | node (d : SrcData) (outs : List (OutData × Option STree))

def STree.dat : STree → SrcData
  | .node d _ => d

def STree.outs : STree → List (OutData × Option STree)
  | .node _ o => o

/-- `pa_source_is_passthrough` (part_000 lines 1133-1139): only monitor
sources support passthrough; true iff the source monitors a sink that is in
passthrough mode. -/
def STree.is_passthrough (t : STree) : Bool :=
  match t.dat.monitor_of_passthrough with
  | some b => b
  | none => false

/-- An output that does not belong to a volume-sharing filter source (the
`o->destination_source && (o->destination_source->flags &
PA_SOURCE_SHARE_VOLUME_WITH_MASTER)` test, negated). -/
def nonsharing (dst : Option STree) : Bool :=
  match dst with
  | none => true
  | some c => !c.dat.share

/-- `cvolume_remap_minimal_impact` (part_000 lines 1286-1323): remap `v`
from map `fromM` to map `toM` preferring the template (the current device
volume) if the template remaps back to `v`; otherwise flatten to an
all-channel volume of `max v`. -/
def cvolume_remap_minimal_impact (rc : RemapCore) (v template : CVolume)
    (fromM toM : ChannelMap) : CVolume :=
  if fromM == toM then v
  else if pa_cvolume_remap rc template toM fromM == v then template
  else List.replicate toM.length (pa_cvolume_max v)

/-- `compute_reference_ratio` (part_000 lines 1163-1198): per-channel
`o->reference_ratio := o->volume / remap(source.reference_volume)`, skipping
muted source channels and channels whose existing ratio still multiplies
back to the stream volume.  `d` is the data of the source owning `o`. -/
def compute_reference_ratio (rc : RemapCore) (d : SrcData) (o : OutData) : OutData :=
  let remapped := pa_cvolume_remap rc d.reference_volume d.channel_map o.channel_map
  let rr := (List.range o.channels).map (fun c =>
    let old := o.reference_ratio.getD c 0
    let rv := remapped.getD c 0
    if rv ≤ PA_VOLUME_MUTED then old
    else if pa_sw_volume_multiply old rv = o.volume.getD c 0 then old
    else pa_sw_volume_divide (o.volume.getD c 0) rv)
  { o with reference_ratio := rr }

/-- The regular-stream case of `compute_real_ratios` (part_000 lines
1246-1279): per channel, `real_ratio := volume / remap(real_volume)` (left
untouched when the source channel is muted, in which case soft is muted) and
`soft_volume := real_ratio × volume_factor`. -/
def compute_real_ratio_regular (rc : RemapCore) (d : SrcData) (o : OutData) : OutData :=
  let remapped := pa_cvolume_remap rc d.real_volume d.channel_map o.channel_map
  let pairs := (List.range o.channels).map (fun c =>
    let oldrr := o.real_ratio.getD c 0
    let rv := remapped.getD c 0
    if rv ≤ PA_VOLUME_MUTED then (oldrr, PA_VOLUME_MUTED)
    else
      let rr := if pa_sw_volume_multiply oldrr rv ≠ o.volume.getD c 0 then
          pa_sw_volume_divide (o.volume.getD c 0) rv
        else oldrr
      (rr, pa_sw_volume_multiply rr (o.volume_factor.getD c 0)))
  { o with real_ratio := pairs.map Prod.fst, soft_volume := pairs.map Prod.snd }

mutual

/-- `get_maximum_output_volume` (part_000 lines 1327-1353): accumulate into
`acc` the channelwise maximum of the minimum-impact-remapped volumes of all
non-sharing streams of the tree, recursing into volume-sharing filter
sources (whose own `output_from_master` volume is skipped). -/
def get_maximum_output_volume (rc : RemapCore) :
    List (OutData × Option STree) → CVolume → ChannelMap → CVolume
  | [], acc, _ => acc
  | (o, dst) :: rest, acc, cmap =>
    let acc' :=
      match dst with
      | some (.node cd couts) =>
        if cd.share then get_maximum_output_volume rc couts acc cmap
        else pa_cvolume_merge acc
          (cvolume_remap_minimal_impact rc o.volume acc o.channel_map cmap)
      | none => pa_cvolume_merge acc
          (cvolume_remap_minimal_impact rc o.volume acc o.channel_map cmap)
    get_maximum_output_volume rc rest acc' cmap

end

/-- `has_outputs` (part_000 lines 1357-1369): true iff the tree has at least
one stream attached, recursing through volume-sharing filter sources. -/
def has_outputs_list : List (OutData × Option STree) → Bool
  | [] => false
  | (_, dst) :: rest =>
    (match dst with
     | some (.node cd couts) => !cd.share || has_outputs_list couts
     | none => true) || has_outputs_list rest

mutual

/-- `update_real_volume` (part_000 lines 1373-1406): install `v` (given over
map `cm`) as the real volume of every source of the tree; under flat volume
each sharing output's stream volume follows the root's real volume and its
reference ratio is recomputed. -/
def update_real_volume (rc : RemapCore) (flat : Bool) (t : STree)
    (v : CVolume) (cm : ChannelMap) : STree :=
  match t with
  | .node d outs =>
    .node { d with real_volume := pa_cvolume_remap rc v cm d.channel_map }
      (update_real_volume_outs rc flat d outs v cm)

def update_real_volume_outs (rc : RemapCore) (flat : Bool) (d : SrcData) :
    List (OutData × Option STree) → CVolume → ChannelMap →
    List (OutData × Option STree)
  | [], _, _ => []
  | (o, dst) :: rest, v, cm =>
    (match dst with
     | some child =>
       if child.dat.share then
         let o' := if flat then
             compute_reference_ratio rc d
               { o with volume := pa_cvolume_remap rc v cm o.channel_map }
           else o
         (o', some (update_real_volume rc flat child v cm))
       else (o, some child)
     | none => (o, none)) :: update_real_volume_outs rc flat d rest v cm

end

mutual

/-- `compute_reference_ratios` (part_000 lines 1202-1217): recompute the
reference ratio of every stream of the tree. -/
def compute_reference_ratios (rc : RemapCore) (t : STree) : STree :=
  match t with
  | .node d outs => .node d (compute_reference_ratios_outs rc d outs)

def compute_reference_ratios_outs (rc : RemapCore) (d : SrcData) :
    List (OutData × Option STree) → List (OutData × Option STree)
  | [] => []
  | (o, dst) :: rest =>
    let o' := compute_reference_ratio rc d o
    (match dst with
     | some child =>
       (o', some (if child.dat.share then compute_reference_ratios rc child else child))
     | none => (o', none)) :: compute_reference_ratios_outs rc d rest

end

mutual

/-- `compute_real_ratios` (part_000 lines 1221-1284): for a sharing output
the real ratio is reset to 0 dB and soft becomes `volume_factor`, recursing
into the filter source; otherwise the regular per-channel computation. -/
def compute_real_ratios (rc : RemapCore) (t : STree) : STree :=
  match t with
  | .node d outs => .node d (compute_real_ratios_outs rc d outs)

def compute_real_ratios_outs (rc : RemapCore) (d : SrcData) :
    List (OutData × Option STree) → List (OutData × Option STree)
  | [] => []
  | (o, dst) :: rest =>
    (match dst with
     | some child =>
       if child.dat.share then
         ({ o with real_ratio := pa_cvolume_reset o.real_ratio.length,
                   soft_volume := o.volume_factor },
          some (compute_real_ratios rc child))
       else (compute_real_ratio_regular rc d o, some child)
     | none => (compute_real_ratio_regular rc d o, none))
      :: compute_real_ratios_outs rc d rest

end

mutual

/-- `update_reference_volume` (part_000 lines 1490-1533): install `v` (over
map `cm`) as the reference volume, update `save_volume`, and when the
reference changed (or on a sharing source) push it down to the sharing
children; returns whether any reference volume changed. -/
def update_reference_volume (rc : RemapCore) (t : STree) (v : CVolume)
    (cm : ChannelMap) (save : Bool) : Bool × STree :=
  match t with
  | .node d outs =>
    let volume := pa_cvolume_remap rc v cm d.channel_map
    let changed := !(volume == d.reference_volume)
    let d' := { d with reference_volume := volume,
                       save_volume := (!changed && d.save_volume) || save }
    if !changed && !d.share then (false, .node d' outs)
    else (true, .node d' (update_reference_volume_outs rc outs v cm))

def update_reference_volume_outs (rc : RemapCore) :
    List (OutData × Option STree) → CVolume → ChannelMap →
    List (OutData × Option STree)
  | [], _, _ => []
  | (o, dst) :: rest, v, cm =>
    (match dst with
     | some child =>
       if child.dat.share then
         (o, some (update_reference_volume rc child v cm false).2)
       else (o, some child)
     | none => (o, none)) :: update_reference_volume_outs rc rest v cm

end

/-- The per-stream update of `propagate_reference_volume` (part_000 lines
1466-1474): `o->volume := remap(source.reference_volume) × reference_ratio`. -/
def propagate_reference_out (rc : RemapCore) (d : SrcData) (o : OutData) : OutData :=
  { o with volume := (pa_sw_cvolume_multiply
      (pa_cvolume_remap rc d.reference_volume d.channel_map o.channel_map)
      o.reference_ratio) }

mutual

/-- `propagate_reference_volume` (part_000 lines 1441-1485): push the
source's reference volume into the volumes of its non-sharing streams
(volumes of sharing outputs are fixed later by `update_real_volume`),
recursing into sharing children. -/
def propagate_reference_volume (rc : RemapCore) (t : STree) : STree :=
  match t with
  | .node d outs => .node d (propagate_reference_volume_outs rc d outs)

def propagate_reference_volume_outs (rc : RemapCore) (d : SrcData) :
    List (OutData × Option STree) → List (OutData × Option STree)
  | [] => []
  | (o, dst) :: rest =>
    (match dst with
     | some child =>
       if child.dat.share then (o, some (propagate_reference_volume rc child))
       else (propagate_reference_out rc d o, some child)
     | none => (propagate_reference_out rc d o, none))
      :: propagate_reference_volume_outs rc d rest

end

/-- `compute_real_volume` (part_000 lines 1410-1437): with no streams
attached, hold the real volume at the reference volume; otherwise set the
real volume to the maximum stream volume (folded from mute) and push it down
the tree, then recompute real ratios and soft volumes. -/
def compute_real_volume (rc : RemapCore) (flat : Bool) (t : STree) : STree :=
  if !(has_outputs_list t.outs) then
    update_real_volume rc flat t t.dat.reference_volume t.dat.channel_map
  else
    let mv := get_maximum_output_volume rc t.outs
      (pa_cvolume_mute t.dat.channel_map.length) t.dat.channel_map
    compute_real_ratios rc (update_real_volume rc flat t mv t.dat.channel_map)

/-- The new reference volume derived from the caller's volume argument
(part_000 lines 1569-1575): the volume itself when compatible with the
source's sample spec, else the current reference volume rescaled to the
argument's maximum (the mono-broadcast exception). -/
def source_new_reference_volume (s : STree) (v : CVolume) : CVolume :=
  if v.length == s.dat.channel_map.length then v
  else pa_cvolume_scale s.dat.reference_volume (pa_cvolume_max v)

/-- Replace a tree root's soft volume. -/
def STree.setSoft : STree → CVolume → STree
  | .node d outs, v => .node { d with soft_volume := v } outs

/-- `pa_source_set_volume` (part_000 lines 1536-1628), invoked on the root
source of a sharing tree (`pa_source_get_master(s) = s`).  Returns the
resulting tree and whether `PA_SOURCE_MESSAGE_SET_SHARED_VOLUME` was sent to
the IO thread.  The flat-volume flag consulted throughout is the root's
(`pa_source_flat_volume_enabled`).  With `volume = none` the source's
volumes are synchronized from the stream volumes (flat mode only, as the C
code asserts). -/
def pa_source_set_volume (rc : RemapCore) (s : STree) (volume : Option CVolume)
    (send_msg save : Bool) : STree × Bool :=
  let flat := s.dat.flat_volume
  if s.is_passthrough &&
      (match volume with | none => true | some v => !(pa_cvolume_is_norm v)) then
    (s, false)
  else
    let s' :=
      match volume with
      | some v =>
        let new_ref := pa_cvolume_remap rc (source_new_reference_volume s v)
          s.dat.channel_map s.dat.channel_map
        let r := update_reference_volume rc s new_ref s.dat.channel_map save
        let s₁ := r.2
        if r.1 then
          if flat then
            compute_real_volume rc flat (propagate_reference_volume rc s₁)
          else
            update_real_volume rc flat s₁ s₁.dat.reference_volume s₁.dat.channel_map
        else s₁
      | none =>
        let s₁ := compute_real_volume rc flat s
        let new_ref := pa_cvolume_merge s₁.dat.reference_volume s₁.dat.real_volume
        let s₂ := (update_reference_volume rc s₁ new_ref s₁.dat.channel_map save).2
        compute_reference_ratios rc s₂
    let s'' :=
      if s'.dat.has_set_volume_cb then
        s'.setSoft (pa_cvolume_reset s'.dat.channel_map.length)
      else
        s'.setSoft s'.dat.real_volume
    (s'', send_msg)

/-! ## Path-set condensation (`element_is_subset` / `path_set_condense`,
alsa-mixer.c lines 3026-3250)

Elements carry their post-probe state.  The hardware dB query used for a
`VOLUME_ZERO` element without a dB fix
(`snd_mixer_selem_ask_{playback,capture}_dB_vol` at lines 3098-3113) is the
oracle `AskDbVol` (`none` = the element disappeared or the query failed,
which makes `element_is_subset` return false).  `ps->paths` is a hashmap
with trivial (pointer) hashing, so paths are identified by an `id` tag
standing for the object identity; `p == p2` in the C is `id` equality. -/

inductive AlsaDirection where
  | output | input | any
deriving DecidableEq, Repr

/-- `pa_alsa_decibel_fix` (alsa-mixer.h lines 294-308): a table mapping
hardware steps `min_step..max_step` to millibel values, indexed by
`step - min_step`. -/
structure DbFix where
  min_step : Int
  max_step : Int
  db_values : List Int
deriving DecidableEq, Repr

/-- `decibel_fix_get_step` (alsa-mixer.c lines 814-839): the table index of
the dB value nearest `db_value` (first at-or-above for positive rounding,
last at-or-below for negative), clamped to the step range; returns the step
and the chosen dB value. -/
def decibel_fix_get_step (f : DbFix) (db_value : Int) (rounding : Int) :
    Int × Int :=
  let max_i := (f.max_step - f.min_step).toNat
  let i :=
    if rounding > 0 then
      match (List.range max_i).find? (fun i => f.db_values.getD i 0 ≥ db_value) with
      | some i => i
      | none => max_i
    else
      match (List.range max_i).find? (fun i => f.db_values.getD (i + 1) 0 > db_value) with
      | some i => i
      | none => max_i
  (Int.ofNat i + f.min_step, f.db_values.getD i 0)

/-- The dB-to-volume hardware query oracle used by `element_is_subset` for a
`VOLUME_ZERO` element with no dB fix: element name, direction and dB value
to the selected hardware volume, `none` on failure. -/
abbrev AskDbVol := String → AlsaDirection → Int → Option Int

/-- `pa_alsa_option` as compared during condensation: its ALSA name. -/
structure AlsaOpt where
  alsa_name : String
deriving DecidableEq, Repr

/-- The slice of `pa_alsa_element` state read during condensation.
`masks_col1`/`masks_col2` are the two columns of
`masks[0..SND_MIXER_SCHN_LAST]`, selected by `n_channels - 1`. -/
structure AElem where
  alsa_name : String
  direction : AlsaDirection
  volume_use : AlsaVolumeUse
  constant_volume : Int
  volume_limit : Int
  min_volume : Int
  n_channels : Nat
  masks_col1 : List Nat
  masks_col2 : List Nat
  db_fix : Option DbFix
  switch_use : AlsaSwitchUse
  enumeration_use : AlsaEnumerationUse
  options : List AlsaOpt
deriving DecidableEq, Repr

/-- The mask column `masks[·][n_channels - 1]` of an element. -/
def AElem.maskCol (e : AElem) : List Nat :=
  if e.n_channels == 1 then e.masks_col1 else e.masks_col2

/-- `options_have_option` (alsa-mixer.c lines 3026-3037). -/
def options_have_option (options : List AlsaOpt) (alsa_name : String) : Bool :=
  options.any (fun o => o.alsa_name == alsa_name)

/-- `enumeration_is_subset` (alsa-mixer.c lines 3039-3058): every option `a`
offers exists in `b` (with a NULL option list read as the empty list). -/
def enumeration_is_subset (a_options b_options : List AlsaOpt) : Bool :=
  if a_options.isEmpty then true
  else if b_options.isEmpty then false
  else a_options.all (fun oa => b_options.any (fun ob => ob.alsa_name == oa.alsa_name))

/-- The `a_limit` computed for the `volume-limit` comparison of
`element_is_subset` (alsa-mixer.c lines 3086-3121); `none` stands for the
hardware-failure paths that make the whole comparison false. -/
def element_subset_a_limit (ask : AskDbVol) (a : AElem) : Option Int :=
  if a.volume_use == .constant then some a.constant_volume
  else if a.volume_use == .zero then
    match a.db_fix with
    | some f =>
      let rounding : Int := if a.direction == .output then 1 else -1
      some (decibel_fix_get_step f 0 rounding).1
    | none => ask a.alsa_name a.direction 0
  else if a.volume_use == .off then some a.min_volume
  else if a.volume_use == .merge then some a.volume_limit
  else none

/-- The `volume_use` block of `element_is_subset` (alsa-mixer.c lines
3073-3139). -/
def element_volume_subset (ask : AskDbVol) (a b : AElem) : Bool :=
  if a.volume_use == .ignore then true
  else if a.volume_use == .constant && b.volume_use == .constant &&
          a.constant_volume != b.constant_volume then false
  else if a.volume_use != b.volume_use && b.volume_use != .merge then false
  else
    let limitOk :=
      if b.volume_use == .merge && b.volume_limit ≥ 0 then
        match element_subset_a_limit ask a with
        | none => false
        | some a_limit => a_limit ≤ b.volume_limit
      else true
    let maskOk :=
      if a.volume_use == .merge then
        a.n_channels == b.n_channels && a.maskCol == b.maskCol
      else true
    limitOk && maskOk

/-- The `switch_use` block of `element_is_subset` (alsa-mixer.c lines
3141-3167). -/
def element_switch_subset (a b : AElem) : Bool :=
  if a.switch_use == .ignore then true
  else if a.switch_use != b.switch_use then
    if a.switch_use == .select || a.switch_use == .mute ||
       b.switch_use == .off || b.switch_use == .on then false
    else if b.switch_use == .select then
      if a.switch_use == .on then options_have_option b.options "on"
      else if a.switch_use == .off then options_have_option b.options "off"
      else true
    else true
  else if a.switch_use == .select then
    enumeration_is_subset a.options b.options
  else true

/-- The `enumeration_use` block of `element_is_subset` (alsa-mixer.c lines
3169-3174). -/
def element_enumeration_subset (a b : AElem) : Bool :=
  if a.enumeration_use != .ignore then
    if b.enumeration_use == .ignore then false
    else enumeration_is_subset a.options b.options
  else true

/-- `element_is_subset` (alsa-mixer.c lines 3063-3177): the three sequential
blocks; each can only fail, the function returns true when all pass. -/
def element_is_subset (ask : AskDbVol) (a b : AElem) : Bool :=
  element_volume_subset ask a b && element_switch_subset a b &&
  element_enumeration_subset a b

/-- `pa_available_t` for jack states. -/
inductive Avail where
  | unknown | no | yes
deriving DecidableEq, Repr

/-- The slice of `pa_alsa_jack` state read during condensation. -/
structure AJack where
  alsa_name : String
  has_control : Bool
  state_plugged : Avail
  state_unplugged : Avail
deriving DecidableEq, Repr

/-- The slice of `pa_alsa_path` state read during condensation, with `id`
standing for the object identity (the pointer used as the hashmap key). -/
structure APath where
  id : Nat
  name : String
  jacks : List AJack
  elements : List AElem
deriving DecidableEq, Repr

/-- The jack comparison of `path_set_condense` (alsa-mixer.c lines
3202-3222): every controlled jack of `p` exists in `p2` with control, the
same name and the same plugged/unplugged availability mapping. -/
def path_jacks_subset (p p2 : APath) : Bool :=
  p.jacks.all (fun ja =>
    !ja.has_control ||
    p2.jacks.any (fun jb =>
      jb.has_control && jb.alsa_name == ja.alsa_name &&
      ja.state_plugged == jb.state_plugged &&
      ja.state_unplugged == jb.state_unplugged))

/-- The element walk of `path_set_condense` (alsa-mixer.c lines 3224-3241):
walk both element lists in lockstep; names must match pairwise and each
element of `p` must be a subset of its counterpart; both lists must end
together. -/
def elements_pairwise_subset (ask : AskDbVol) : List AElem → List AElem → Bool
  | [], [] => true
  | ea :: ra, eb :: rb =>
    ea.alsa_name == eb.alsa_name && element_is_subset ask ea eb &&
    elements_pairwise_subset ask ra rb
  | _, _ => false

/-- The subset relation between two paths checked by `path_set_condense`
(jacks then elements). -/
def path_is_subset (ask : AskDbVol) (p p2 : APath) : Bool :=
  path_jacks_subset p p2 && elements_pairwise_subset ask p.elements p2.elements

/-- The outer loop of `path_set_condense`: each path in turn is removed if
it is a subset of any other path currently in the set (the paths already
kept plus the ones not yet visited). -/
def path_set_condense_go (ask : AskDbVol) (kept : List APath) :
    List APath → List APath
  | [] => kept
  | p :: rest =>
    if (kept ++ rest).any (fun q => q.id != p.id && path_is_subset ask p q) then
      path_set_condense_go ask kept rest
    else
      path_set_condense_go ask (kept ++ [p]) rest

/-- `path_set_condense` (alsa-mixer.c lines 3179-3250); with fewer than two
paths the function returns immediately. -/
def path_set_condense (ask : AskDbVol) (paths : List APath) : List APath :=
  if paths.length < 2 then paths
  else path_set_condense_go ask [] paths

/-- The demotion applied by `pa_alsa_path_probe` to every MERGE element that
follows an earlier dB-less volume element: to `VOLUME_ZERO` when the element
itself has dB, to `VOLUME_IGNORE` when it does not (alsa-mixer.c lines 2690
and 2696). -/
def probe_demote (e : ProbeElem) : ProbeElem :=
  if e.volume_use == .merge then
    { e with volume_use := if e.has_dB then .zero else .ignore }
  else e

/-- A hardware dB-query oracle that always fails (for concrete examples). -/
def ask_none : AskDbVol := fun _ _ _ => none

/-- A trivial remap core (for concrete examples): pass the volume through. -/
def sample_rc : RemapCore := fun v _ _ => v

/-- A concrete non-sharing stereo stream at volume (0.5, 1.0)·NORM. -/
def sample_flat_out : OutData :=
  OutData.mk [0, 1] 2 [0x8000, 0x10000]
    [PA_VOLUME_NORM, PA_VOLUME_NORM] [PA_VOLUME_NORM, PA_VOLUME_NORM]
    [PA_VOLUME_NORM, PA_VOLUME_NORM] [PA_VOLUME_NORM, PA_VOLUME_NORM]

/-- A concrete flat-volume root source with `sample_flat_out` attached. -/
def sample_flat_source : STree :=
  STree.node
    (SrcData.mk false true [0, 1] [PA_VOLUME_NORM, PA_VOLUME_NORM] [0, 0]
      [PA_VOLUME_NORM, PA_VOLUME_NORM] false none false false)
    [(sample_flat_out, none)]

/-- A concrete probed path: one MERGE element on "Capture". -/
def sample_path_a : APath :=
  APath.mk 0 "analog-input"
    []
    [AElem.mk "Capture" .input .merge 0 (-1) 0 1 [] [] none .mute .ignore []]

/-- A concrete probed path incomparable with `sample_path_a`: its element
has a different ALSA name, so the pairwise element walk fails both ways. -/
def sample_path_b : APath :=
  APath.mk 1 "iec958-input"
    []
    [AElem.mk "IEC958 Capture" .input .merge 0 (-1) 0 1 [] [] none .mute .ignore []]

/-! # Theorems -/

/-- C6: For every source in the RUNNING state (at least one non-corked
stream attached), `pa_source_update_rate(s, rate, passthrough)` returns
FALSE and leaves `s->sample_spec.rate` unchanged. -/
theorem c6_update_rate_refused_while_running (s : RateSource) (rate : Nat)
    (passthrough : Bool) (h : s.state = SourceState.running) :
    pa_source_update_rate s rate passthrough = (false, s.sample_spec_rate) := by
  unfold pa_source_update_rate
  split
  · split
    · rfl
    · simp [h]
  · rfl

/-- Witness for C6 at a concrete running source: the rate switch to 48000 Hz
is refused and the rate stays 44100 Hz. -/
theorem c6_witness :
    (RateSource.mk true (fun _ => true) 44100 48000 SourceState.running 44100 1 0).state
        = SourceState.running ∧
      pa_source_update_rate
        (RateSource.mk true (fun _ => true) 44100 48000 SourceState.running 44100 1 0)
        48000 false = (false, 44100) :=
  ⟨rfl, c6_update_rate_refused_while_running _ 48000 false rfl⟩

/-- C9: When `pa_source_set_port` is called with a known port name that is
not already active and the port switch itself fails (the implementor's
`set_port` callback, or the IO-thread SET_PORT round-trip under deferred
volume, returns negative), the function returns `-PA_ERR_NOENTITY` — the
same code as for an unknown port — and leaves `active_port` and `save_port`
unchanged. -/
theorem c9_set_port_failure_noentity (s : PortSource) (n : String) (save : Bool)
    (himpl : s.has_set_port = true)
    (hknown : s.ports.contains n = true)
    (hactive : s.active_port ≠ some n)
    (hfail : (if s.deferred_volume then s.msg_ret n else s.set_port_ret n) < 0) :
    pa_source_set_port s (some n) save = (-PA_ERR_NOENTITY, s) := by
  unfold pa_source_set_port
  have hact : (s.active_port == some n) = false := by
    simpa using hactive
  simp [himpl, hknown, hact, hfail]

/-- Witness for C9 at a concrete source whose `set_port` callback fails:
the result is `-PA_ERR_NOENTITY` and the state is returned unchanged. -/
theorem c9_witness :
    (PortSource.mk true ["a", "b"] (some "a") false false (fun _ => -1) (fun _ => 0)).ports.contains "b" = true ∧
      pa_source_set_port
        (PortSource.mk true ["a", "b"] (some "a") false false (fun _ => -1) (fun _ => 0))
        (some "b") true
        = (-PA_ERR_NOENTITY,
           PortSource.mk true ["a", "b"] (some "a") false false (fun _ => -1) (fun _ => 0)) :=
  ⟨rfl, c9_set_port_failure_noentity _ "b" true rfl rfl (by simp) (by norm_num)⟩

/-- C10: For every source that is the monitor of a passthrough sink,
`pa_source_set_volume` returns immediately — reference, real and soft
volumes unchanged, no IO-thread message — unless it is invoked with a volume
that is NORM on every channel. -/
theorem c10_set_volume_passthrough_early_return (rc : RemapCore) (s : STree)
    (volume : Option CVolume) (send_msg save : Bool)
    (hpt : s.is_passthrough = true)
    (hnorm : ∀ v, volume = some v → pa_cvolume_is_norm v = false) :
    pa_source_set_volume rc s volume send_msg save = (s, false) := by
  unfold pa_source_set_volume
  cases volume with
  | none => simp [hpt]
  | some v => simp [hpt, hnorm v rfl]

/-- Witness for C10: a monitor of a passthrough sink with a non-NORM volume
request; the call is a no-op. -/
theorem c10_witness :
    (STree.node (SrcData.mk false true [0, 1] [PA_VOLUME_NORM, PA_VOLUME_NORM]
        [PA_VOLUME_NORM, PA_VOLUME_NORM] [PA_VOLUME_NORM, PA_VOLUME_NORM] false
        (some true) false false) []).is_passthrough = true ∧
      pa_source_set_volume (fun v _ _ => v)
        (STree.node (SrcData.mk false true [0, 1] [PA_VOLUME_NORM, PA_VOLUME_NORM]
          [PA_VOLUME_NORM, PA_VOLUME_NORM] [PA_VOLUME_NORM, PA_VOLUME_NORM] false
          (some true) false false) [])
        (some [100, 100]) true true
        = (STree.node (SrcData.mk false true [0, 1] [PA_VOLUME_NORM, PA_VOLUME_NORM]
          [PA_VOLUME_NORM, PA_VOLUME_NORM] [PA_VOLUME_NORM, PA_VOLUME_NORM] false
          (some true) false false) [], false) :=
  ⟨rfl, c10_set_volume_passthrough_early_return _ _ _ true true rfl
    (by intro v hv; cases hv; rfl)⟩

/-- C3, counterexample: the claim says `pa_source_output_may_move_to(o, dest)`
returns false iff `dest` is o's current source or a filter cycle would
arise; but at a destination equal to the current source the code returns
true (part_000 line 4057-4058). -/
theorem c3_counterexample :
    ¬ (pa_source_output_may_move_to
          (MoveOutput.mk 1 0 false false false (fun _ => true))
          (UpSource.mk 0 0 none) 256 = false ↔
        ((UpSource.mk 0 0 none).index
            = (MoveOutput.mk 1 0 false false false (fun _ => true)).source_index ∨
          find_filter_source_output
            (MoveOutput.mk 1 0 false false false (fun _ => true)).index
            (UpSource.mk 0 0 none) = true)) := by
  decide

/-- C3, amended: for every linked source output `o` and destination `dest`,
`pa_source_output_may_move_to(o, dest)` returns true when `dest` equals o's
current source; otherwise it returns false iff o may not move at all
(DONT_MOVE flag or a direct-on-input bond), or o appears on the chain
obtained by following `output_from_master` links from `dest` (the
filter-cycle check), or `dest` already has the maximum number of outputs, or
o's `may_move_to` callback rejects `dest`. -/
theorem c3_may_move_to_amended (o : MoveOutput) (dest : UpSource) (maxOutputs : Nat) :
    pa_source_output_may_move_to o dest maxOutputs = false ↔
      (dest.index ≠ o.source_index ∧
        (o.dont_move = true ∨ o.direct_on_input = true ∨
          find_filter_source_output o.index dest = true ∨
          dest.outputs_size ≥ maxOutputs ∨
          (o.has_may_move_to_cb = true ∧ o.may_move_to_cb dest.index = false))) := by
  unfold pa_source_output_may_move_to pa_source_output_may_move
  split_ifs with h1 h2 h3 h4 h5 <;>
    (simp_all [not_or]; try tauto)

theorem path_probe_step_nonmerge (p : ProbePathFlags) (e : ProbeElem)
    (h : e.volume_use ≠ .merge) :
    path_probe_step false p e
      = (if e.switch_use == .mute then { p with has_mute := true } else p, e) := by
  unfold path_probe_step
  have : (e.volume_use == AlsaVolumeUse.merge) = false := by
    simpa using h
  simp only [this, Bool.false_eq_true, if_false]
  split <;> rfl

theorem path_probe_step_absorb (p : ProbePathFlags) (e : ProbeElem)
    (hv : p.has_volume = true) (hd : p.has_dB = false) :
    ((path_probe_step false p e).2 = probe_demote e) ∧
      (path_probe_step false p e).1.has_volume = true ∧
      (path_probe_step false p e).1.has_dB = false := by
  unfold path_probe_step probe_demote
  rcases he : e.volume_use <;> rcases hb : e.has_dB <;>
    simp [he, hb, hv, hd] <;> split <;> simp_all

theorem path_probe_elements_nonmerge (l : List ProbeElem) (p : ProbePathFlags)
    (h : ∀ e ∈ l, e.volume_use ≠ .merge) :
    ((path_probe_elements false p l).2 = l) ∧
      (path_probe_elements false p l).1.has_volume = p.has_volume ∧
      (path_probe_elements false p l).1.has_dB = p.has_dB := by
  induction l generalizing p with
  | nil => simp [path_probe_elements]
  | cons e rest ih =>
    have hnm : (e.volume_use == AlsaVolumeUse.merge) = false := by
      simpa using h e (by simp)
    have htail := fun q => ih q (fun x hx => h x (List.mem_cons_of_mem _ hx))
    unfold path_probe_elements path_probe_step
    simp only [hnm, Bool.false_eq_true, if_false, Bool.if_false_left]
    split
    · obtain ⟨h2, h3, h4⟩ := htail { p with has_mute := true }
      exact ⟨by simp [h2], by simp [h3], by simp [h4]⟩
    · obtain ⟨h2, h3, h4⟩ := htail p
      exact ⟨by simp [h2], by simp [h3], by simp [h4]⟩

theorem path_probe_elements_absorb (l : List ProbeElem) (p : ProbePathFlags)
    (hv : p.has_volume = true) (hd : p.has_dB = false) :
    ((path_probe_elements false p l).2 = l.map probe_demote) ∧
      (path_probe_elements false p l).1.has_volume = true ∧
      (path_probe_elements false p l).1.has_dB = false := by
  induction l generalizing p with
  | nil => simp [path_probe_elements, hv, hd]
  | cons e rest ih =>
    obtain ⟨h1, h2, h3⟩ := path_probe_step_absorb p e hv hd
    unfold path_probe_elements
    obtain ⟨h4, h5, h6⟩ := ih ((path_probe_step false p e).1) h2 h3
    refine ⟨?_, ?_, ?_⟩ <;> simp [h1, h4, h5, h6]

theorem path_probe_elements_append (l₁ l₂ : List ProbeElem) (p : ProbePathFlags) :
    path_probe_elements false p (l₁ ++ l₂)
      = ((path_probe_elements false (path_probe_elements false p l₁).1 l₂).1,
         (path_probe_elements false p l₁).2
           ++ (path_probe_elements false (path_probe_elements false p l₁).1 l₂).2) := by
  induction l₁ generalizing p with
  | nil => simp [path_probe_elements]
  | cons e rest ih =>
    simp only [List.cons_append, path_probe_elements]
    simp [ih]

/-- C4, counterexample: probing a path whose elements are a MERGE element
without dB followed by a MERGE element with dB leaves the earlier element at
`VOLUME_MERGE` and demotes the *later* (dB-capable) element to
`VOLUME_ZERO` (alsa-mixer.c lines 2686-2692, "we need to 'neutralize' this
slider"), contradicting the claim that the earlier element is demoted. -/
theorem c4_counterexample :
    (path_probe_elements false (ProbePathFlags.mk false false false 0 0)
        [ProbeElem.mk .merge false .ignore 0 64,
         ProbeElem.mk .merge true .ignore 0 64]).2.map ProbeElem.volume_use
      = [.merge, .zero] := by
  decide

/-- C4, amended: during `pa_alsa_path_probe` of a path whose first volume
(MERGE) element lacks dB capability, every *later* MERGE element is demoted —
to `VOLUME_ZERO` (forced to its 0 dB position) if it has dB capability, to
`VOLUME_IGNORE` if not — while the earlier dB-less element itself keeps
`VOLUME_MERGE`, so after probing the variable gain resides in the dB-less
element. -/
theorem c4_probe_demotes_later_merge (l₁ l₂ : List ProbeElem) (e₀ : ProbeElem)
    (p : ProbePathFlags)
    (hv : p.has_volume = false) (hd : p.has_dB = false)
    (h₁ : ∀ e ∈ l₁, e.volume_use ≠ .merge)
    (h₀ : e₀.volume_use = .merge) (hdB : e₀.has_dB = false) :
    (path_probe_elements false p (l₁ ++ e₀ :: l₂)).2
      = l₁ ++ e₀ :: l₂.map probe_demote := by
  obtain ⟨g1, g2, g3⟩ := path_probe_elements_nonmerge l₁ p h₁
  rw [path_probe_elements_append, g1]
  set p₁ := (path_probe_elements false p l₁).1 with hp₁
  have hv₁ : p₁.has_volume = false := by rw [g2, hv]
  have hd₁ : p₁.has_dB = false := by rw [g3, hd]
  have hstep : (path_probe_step false p₁ e₀).2 = e₀ ∧
      (path_probe_step false p₁ e₀).1.has_volume = true ∧
      (path_probe_step false p₁ e₀).1.has_dB = false := by
    unfold path_probe_step
    simp [h₀, hdB, hv₁, hd₁]
    split <;> simp
  obtain ⟨s1, s2, s3⟩ := hstep
  obtain ⟨a1, _, _⟩ :=
    path_probe_elements_absorb l₂ ((path_probe_step false p₁ e₀).1) s2 s3
  unfold path_probe_elements
  simp [s1, a1]

theorem delay_queue_loop_spec (limit mbs : Nat) (useMbs : Bool) :
    ∀ (n : Nat) (q : List Nat), q.sum ≤ n → (∀ x ∈ q, 0 < x) →
      (useMbs = true → 0 < mbs) →
      (delay_queue_loop limit mbs useMbs q).1.sum = min q.sum limit ∧
        (delay_queue_loop limit mbs useMbs q).2.sum = q.sum - limit := by
  intro n
  induction n with
  | zero =>
    intro q hq hpos _
    have : q = [] := by
      cases q with
      | nil => rfl
      | cons h t =>
        exfalso
        have := hpos h (by simp)
        simp only [List.sum_cons] at hq
        omega
    subst this
    simp [delay_queue_loop]
  | succ n ih =>
    intro q hq hpos hmbs
    cases q with
    | nil => simp [delay_queue_loop]
    | cons h t =>
      rw [delay_queue_loop]
      have hpo : 0 < h := hpos h (by simp)
      simp only [List.sum_cons] at hq ⊢
      by_cases hgt : h + t.sum > limit
      · have hqlen : ¬ dequeue_take useMbs mbs h (h + t.sum - limit) = 0 := by
          unfold dequeue_take
          split_ifs with hu
          · have := hmbs hu
            omega
          · omega
        have hle : dequeue_take useMbs mbs h (h + t.sum - limit) ≤ h :=
          dequeue_take_le_head useMbs mbs h (h + t.sum - limit)
        have hlex : dequeue_take useMbs mbs h (h + t.sum - limit)
            ≤ h + t.sum - limit := by
          unfold dequeue_take
          split <;> omega
        simp only [if_pos hgt, dif_neg hqlen]
        set qlen := dequeue_take useMbs mbs h (h + t.sum - limit) with hqdef
        have hrest : (if h - qlen = 0 then t else (h - qlen) :: t).sum
            = h + t.sum - qlen := by
          split
          · omega
          · simp only [List.sum_cons]
            omega
        have hrpos : ∀ x ∈ (if h - qlen = 0 then t else (h - qlen) :: t), 0 < x := by
          split
          · exact fun x hx => hpos x (by simp [hx])
          · intro x hx
            rcases List.mem_cons.mp hx with hx | hx
            · omega
            · exact hpos x (by simp [hx])
        have hrn : (if h - qlen = 0 then t else (h - qlen) :: t).sum ≤ n := by
          rw [hrest]
          omega
        obtain ⟨ih1, ih2⟩ := ih _ hrn hrpos hmbs
        rw [hrest] at ih1 ih2
        refine ⟨?_, ?_⟩
        · simp only [ih1]
          omega
        · simp only [List.sum_cons, ih2]
          omega
      · rw [if_neg hgt]
        refine ⟨by simp; omega, by simp; omega⟩

/-- C7: in `pa_source_output_push` of a running output with a `push`
callback, the retention limit is 0 when the output implements
`process_rewind` and otherwise the source's `max_rewind`, lowered (when
positive and the source is a monitor) to the byte equivalent of the
monitored sink's current latency when that is smaller; everything in the
delay queue beyond the limit is dequeued and delivered in the same call
(the queue keeps exactly `min(total, limit)` bytes and `total - limit`
bytes are handed to `push`). -/
theorem c7_push_dequeues_beyond_limit (o : PushOutput) (chunk : Nat)
    (hphas : o.has_push = true) (hcork : o.corked = false)
    (hpos : ∀ x ∈ o.delay_memblockq, 0 < x) (hchunk : 0 < chunk)
    (hmbs : o.has_resampler = true → 0 < o.resampler_mbs) :
    push_limit o
        = (if (if o.has_process_rewind then 0 else o.source_max_rewind) > 0 then
            match o.monitor_of_latency with
            | some latency =>
              if o.usec_to_bytes latency
                  < (if o.has_process_rewind then 0 else o.source_max_rewind) then
                o.usec_to_bytes latency
              else (if o.has_process_rewind then 0 else o.source_max_rewind)
            | none => (if o.has_process_rewind then 0 else o.source_max_rewind)
          else (if o.has_process_rewind then 0 else o.source_max_rewind)) ∧
      (pa_source_output_push o chunk).1.sum
        = min (o.delay_memblockq.sum + chunk) (push_limit o) ∧
      (pa_source_output_push o chunk).2.sum
        = o.delay_memblockq.sum + chunk - push_limit o := by
  refine ⟨rfl, ?_, ?_⟩ <;>
  · unfold pa_source_output_push
    simp only [hphas, hcork, Bool.not_true, Bool.false_or, if_false]
    have hqpos : ∀ x ∈ o.delay_memblockq ++ [chunk], 0 < x := by
      intro x hx
      rcases List.mem_append.mp hx with hx | hx
      · exact hpos x hx
      · simp at hx; omega
    obtain ⟨h1, h2⟩ := delay_queue_loop_spec (push_limit o) o.resampler_mbs
      o.has_resampler (o.delay_memblockq ++ [chunk]).sum
      (o.delay_memblockq ++ [chunk]) le_rfl hqpos hmbs
    simp only [List.sum_append, List.sum_cons, List.sum_nil, Nat.add_zero] at h1 h2
    simp [h1, h2]

/-- Witness for C7 at a concrete monitor-less output: queue [3, 4] plus a
6-byte chunk against limit 5 keeps 5 bytes and delivers 8. -/
theorem c7_witness :
    (PushOutput.mk true false false 5 none (fun u => u) false 0 [3, 4]).has_push = true ∧
      (pa_source_output_push
          (PushOutput.mk true false false 5 none (fun u => u) false 0 [3, 4]) 6).1.sum
        = min ([3, 4].sum + 6)
            (push_limit (PushOutput.mk true false false 5 none (fun u => u) false 0 [3, 4])) ∧
      (pa_source_output_push
          (PushOutput.mk true false false 5 none (fun u => u) false 0 [3, 4]) 6).2.sum
        = [3, 4].sum + 6
            - push_limit (PushOutput.mk true false false 5 none (fun u => u) false 0 [3, 4]) :=
  ⟨rfl,
    (c7_push_dequeues_beyond_limit
      (PushOutput.mk true false false 5 none (fun u => u) false 0 [3, 4]) 6
      rfl rfl (by simp) (by norm_num) (by simp)).2⟩

theorem pa_cvolume_remap_self (rc : RemapCore) (v : CVolume) (cm : ChannelMap) :
    pa_cvolume_remap rc v cm cm = v := by
  simp [pa_cvolume_remap]

theorem pa_cvolume_merge_self (v : CVolume) : pa_cvolume_merge v v = v := by
  unfold pa_cvolume_merge
  induction v with
  | nil => rfl
  | cons x xs ih => simp [List.zipWith, ih]

theorem gmax_cons (rc : RemapCore) (o : OutData) (dst : Option STree)
    (rest : List (OutData × Option STree)) (acc : CVolume) (cmap : ChannelMap) :
    get_maximum_output_volume rc ((o, dst) :: rest) acc cmap
      = get_maximum_output_volume rc rest
          (match dst with
           | some c =>
             if c.dat.share then get_maximum_output_volume rc c.outs acc cmap
             else pa_cvolume_merge acc
               (cvolume_remap_minimal_impact rc o.volume acc o.channel_map cmap)
           | none => pa_cvolume_merge acc
               (cvolume_remap_minimal_impact rc o.volume acc o.channel_map cmap))
          cmap := by
  cases dst with
  | none => rw [get_maximum_output_volume]
  | some c => cases c with
    | node cd couts =>
      rw [get_maximum_output_volume]
      rfl

theorem has_outputs_cons (o : OutData) (dst : Option STree)
    (rest : List (OutData × Option STree)) :
    has_outputs_list ((o, dst) :: rest)
      = ((match dst with
          | some c => !c.dat.share || has_outputs_list c.outs
          | none => true) || has_outputs_list rest) := by
  cases dst with
  | none => rw [has_outputs_list]
  | some c => cases c with
    | node cd couts =>
      rw [has_outputs_list]
      rfl

theorem update_reference_volume_dat (rc : RemapCore) (t : STree) (v : CVolume)
    (cm : ChannelMap) (save : Bool) :
    ((update_reference_volume rc t v cm save).2).dat.share = t.dat.share ∧
      ((update_reference_volume rc t v cm save).2).dat.channel_map = t.dat.channel_map ∧
      ((update_reference_volume rc t v cm save).2).dat.real_volume = t.dat.real_volume ∧
      ((update_reference_volume rc t v cm save).2).dat.flat_volume = t.dat.flat_volume ∧
      ((update_reference_volume rc t v cm save).2).dat.reference_volume
        = pa_cvolume_remap rc v cm t.dat.channel_map := by
  cases t with
  | node d outs =>
    unfold update_reference_volume
    dsimp only
    split <;> exact ⟨rfl, rfl, rfl, rfl, rfl⟩

theorem update_real_volume_dat (rc : RemapCore) (flat : Bool) (t : STree)
    (v : CVolume) (cm : ChannelMap) :
    (update_real_volume rc flat t v cm).dat.share = t.dat.share ∧
      (update_real_volume rc flat t v cm).dat.channel_map = t.dat.channel_map ∧
      (update_real_volume rc flat t v cm).dat.reference_volume
        = t.dat.reference_volume ∧
      (update_real_volume rc flat t v cm).dat.real_volume
        = pa_cvolume_remap rc v cm t.dat.channel_map := by
  cases t with
  | node d outs =>
    unfold update_real_volume
    exact ⟨rfl, rfl, rfl, rfl⟩

theorem compute_real_ratios_dat (rc : RemapCore) (t : STree) :
    (compute_real_ratios rc t).dat = t.dat := by
  cases t with
  | node d outs => rfl

theorem compute_reference_ratios_dat (rc : RemapCore) (t : STree) :
    (compute_reference_ratios rc t).dat = t.dat := by
  cases t with
  | node d outs => rfl

theorem propagate_reference_volume_dat (rc : RemapCore) (t : STree) :
    (propagate_reference_volume rc t).dat = t.dat := by
  cases t with
  | node d outs => rfl

theorem setSoft_outs (t : STree) (v : CVolume) : (t.setSoft v).outs = t.outs := by
  cases t with
  | node d outs => rfl

theorem setSoft_dat (t : STree) (v : CVolume) :
    (t.setSoft v).dat.real_volume = t.dat.real_volume ∧
      (t.setSoft v).dat.reference_volume = t.dat.reference_volume ∧
      (t.setSoft v).dat.channel_map = t.dat.channel_map := by
  cases t with
  | node d outs => exact ⟨rfl, rfl, rfl⟩

mutual

theorem gmax_update_reference_tree (rc : RemapCore) (t : STree) (v : CVolume)
    (cm : ChannelMap) (save : Bool) (acc : CVolume) (cmap : ChannelMap) :
    get_maximum_output_volume rc ((update_reference_volume rc t v cm save).2).outs acc cmap
      = get_maximum_output_volume rc t.outs acc cmap := by
  cases t with
  | node d outs =>
    unfold update_reference_volume
    dsimp only
    split
    · rfl
    · exact gmax_update_reference_outs rc outs v cm acc cmap

theorem gmax_update_reference_outs (rc : RemapCore)
    (outs : List (OutData × Option STree)) (v : CVolume) (cm : ChannelMap)
    (acc : CVolume) (cmap : ChannelMap) :
    get_maximum_output_volume rc (update_reference_volume_outs rc outs v cm) acc cmap
      = get_maximum_output_volume rc outs acc cmap := by
  match outs with
  | [] => rfl
  | (o, dst) :: rest =>
    match dst with
    | none =>
      rw [update_reference_volume_outs]
      rw [gmax_cons, gmax_cons]
      exact gmax_update_reference_outs rc rest v cm _ cmap
    | some child =>
      rw [update_reference_volume_outs]
      by_cases hs : child.dat.share = true
      · rw [if_pos hs]
        rw [gmax_cons, gmax_cons]
        dsimp only
        obtain ⟨h1, _, _, _, _⟩ := update_reference_volume_dat rc child v cm false
        rw [h1, if_pos hs, if_pos hs,
          gmax_update_reference_tree rc child v cm false acc cmap]
        exact gmax_update_reference_outs rc rest v cm _ cmap
      · rw [if_neg hs]
        rw [gmax_cons, gmax_cons]
        exact gmax_update_reference_outs rc rest v cm _ cmap

end

theorem compute_real_ratio_regular_keeps (rc : RemapCore) (d : SrcData) (o : OutData) :
    (compute_real_ratio_regular rc d o).volume = o.volume ∧
      (compute_real_ratio_regular rc d o).channel_map = o.channel_map :=
  ⟨rfl, rfl⟩

theorem compute_reference_ratio_keeps (rc : RemapCore) (d : SrcData) (o : OutData) :
    (compute_reference_ratio rc d o).volume = o.volume ∧
      (compute_reference_ratio rc d o).channel_map = o.channel_map :=
  ⟨rfl, rfl⟩

mutual

theorem gmax_update_real_tree (rc : RemapCore) (flat : Bool) (t : STree)
    (v : CVolume) (cm : ChannelMap) (acc : CVolume) (cmap : ChannelMap) :
    get_maximum_output_volume rc (update_real_volume rc flat t v cm).outs acc cmap
      = get_maximum_output_volume rc t.outs acc cmap := by
  cases t with
  | node d outs =>
    unfold update_real_volume
    exact gmax_update_real_outs rc flat d outs v cm acc cmap

theorem gmax_update_real_outs (rc : RemapCore) (flat : Bool) (d : SrcData)
    (outs : List (OutData × Option STree)) (v : CVolume) (cm : ChannelMap)
    (acc : CVolume) (cmap : ChannelMap) :
    get_maximum_output_volume rc (update_real_volume_outs rc flat d outs v cm) acc cmap
      = get_maximum_output_volume rc outs acc cmap := by
  match outs with
  | [] => rfl
  | (o, dst) :: rest =>
    match dst with
    | none =>
      rw [update_real_volume_outs]
      rw [gmax_cons, gmax_cons]
      exact gmax_update_real_outs rc flat d rest v cm _ cmap
    | some child =>
      rw [update_real_volume_outs]
      by_cases hs : child.dat.share = true
      · rw [if_pos hs]
        rw [gmax_cons, gmax_cons]
        dsimp only
        obtain ⟨h1, _, _, _⟩ := update_real_volume_dat rc flat child v cm
        rw [h1, if_pos hs, if_pos hs,
          gmax_update_real_tree rc flat child v cm acc cmap]
        exact gmax_update_real_outs rc flat d rest v cm _ cmap
      · rw [if_neg hs]
        rw [gmax_cons, gmax_cons]
        exact gmax_update_real_outs rc flat d rest v cm _ cmap

end

mutual

theorem gmax_real_ratios_tree (rc : RemapCore) (t : STree)
    (acc : CVolume) (cmap : ChannelMap) :
    get_maximum_output_volume rc (compute_real_ratios rc t).outs acc cmap
      = get_maximum_output_volume rc t.outs acc cmap := by
  cases t with
  | node d outs =>
    unfold compute_real_ratios
    exact gmax_real_ratios_outs rc d outs acc cmap

theorem gmax_real_ratios_outs (rc : RemapCore) (d : SrcData)
    (outs : List (OutData × Option STree)) (acc : CVolume) (cmap : ChannelMap) :
    get_maximum_output_volume rc (compute_real_ratios_outs rc d outs) acc cmap
      = get_maximum_output_volume rc outs acc cmap := by
  match outs with
  | [] => rfl
  | (o, dst) :: rest =>
    match dst with
    | none =>
      rw [compute_real_ratios_outs]
      rw [gmax_cons, gmax_cons]
      dsimp only
      obtain ⟨h1, h2⟩ := compute_real_ratio_regular_keeps rc d o
      rw [h1, h2]
      exact gmax_real_ratios_outs rc d rest _ cmap
    | some child =>
      rw [compute_real_ratios_outs]
      by_cases hs : child.dat.share = true
      · rw [if_pos hs]
        rw [gmax_cons, gmax_cons]
        dsimp only
        rw [compute_real_ratios_dat, if_pos hs, if_pos hs,
          gmax_real_ratios_tree rc child acc cmap]
        exact gmax_real_ratios_outs rc d rest _ cmap
      · rw [if_neg hs]
        rw [gmax_cons, gmax_cons]
        dsimp only
        obtain ⟨h1, h2⟩ := compute_real_ratio_regular_keeps rc d o
        rw [h1, h2]
        exact gmax_real_ratios_outs rc d rest _ cmap

end

mutual

theorem gmax_reference_ratios_tree (rc : RemapCore) (t : STree)
    (acc : CVolume) (cmap : ChannelMap) :
    get_maximum_output_volume rc (compute_reference_ratios rc t).outs acc cmap
      = get_maximum_output_volume rc t.outs acc cmap := by
  cases t with
  | node d outs =>
    unfold compute_reference_ratios
    exact gmax_reference_ratios_outs rc d outs acc cmap

theorem gmax_reference_ratios_outs (rc : RemapCore) (d : SrcData)
    (outs : List (OutData × Option STree)) (acc : CVolume) (cmap : ChannelMap) :
    get_maximum_output_volume rc (compute_reference_ratios_outs rc d outs) acc cmap
      = get_maximum_output_volume rc outs acc cmap := by
  match outs with
  | [] => rfl
  | (o, dst) :: rest =>
    match dst with
    | none =>
      rw [compute_reference_ratios_outs]
      rw [gmax_cons, gmax_cons]
      dsimp only
      obtain ⟨h1, h2⟩ := compute_reference_ratio_keeps rc d o
      rw [h1, h2]
      exact gmax_reference_ratios_outs rc d rest _ cmap
    | some child =>
      rw [compute_reference_ratios_outs]
      by_cases hs : child.dat.share = true
      · rw [if_pos hs]
        rw [gmax_cons, gmax_cons]
        dsimp only
        obtain ⟨h1, h2⟩ := compute_reference_ratio_keeps rc d o
        rw [h1, h2, if_pos hs, compute_reference_ratios_dat, if_pos hs,
          gmax_reference_ratios_tree rc child acc cmap]
        exact gmax_reference_ratios_outs rc d rest _ cmap
      · rw [if_neg hs]
        rw [gmax_cons, gmax_cons]
        dsimp only
        obtain ⟨h1, h2⟩ := compute_reference_ratio_keeps rc d o
        rw [h1, h2]
        exact gmax_reference_ratios_outs rc d rest _ cmap

end

mutual

theorem ho_update_reference_tree (rc : RemapCore) (t : STree) (v : CVolume)
    (cm : ChannelMap) (save : Bool) :
    has_outputs_list ((update_reference_volume rc t v cm save).2).outs
      = has_outputs_list t.outs := by
  cases t with
  | node d outs =>
    unfold update_reference_volume
    dsimp only
    split
    · rfl
    · exact ho_update_reference_outs rc outs v cm

theorem ho_update_reference_outs (rc : RemapCore)
    (outs : List (OutData × Option STree)) (v : CVolume) (cm : ChannelMap) :
    has_outputs_list (update_reference_volume_outs rc outs v cm)
      = has_outputs_list outs := by
  match outs with
  | [] => rfl
  | (o, dst) :: rest =>
    match dst with
    | none =>
      rw [update_reference_volume_outs]
      rw [has_outputs_cons, has_outputs_cons]
      rw [ho_update_reference_outs rc rest v cm]
    | some child =>
      rw [update_reference_volume_outs]
      by_cases hs : child.dat.share = true
      · rw [if_pos hs]
        rw [has_outputs_cons, has_outputs_cons]
        dsimp only
        obtain ⟨h1, _, _, _, _⟩ := update_reference_volume_dat rc child v cm false
        rw [h1, ho_update_reference_tree rc child v cm false,
          ho_update_reference_outs rc rest v cm]
      · rw [if_neg hs]
        rw [has_outputs_cons, has_outputs_cons]
        rw [ho_update_reference_outs rc rest v cm]

end

mutual

theorem ho_propagate_tree (rc : RemapCore) (t : STree) :
    has_outputs_list (propagate_reference_volume rc t).outs
      = has_outputs_list t.outs := by
  cases t with
  | node d outs =>
    unfold propagate_reference_volume
    exact ho_propagate_outs rc d outs

theorem ho_propagate_outs (rc : RemapCore) (d : SrcData)
    (outs : List (OutData × Option STree)) :
    has_outputs_list (propagate_reference_volume_outs rc d outs)
      = has_outputs_list outs := by
  match outs with
  | [] => rfl
  | (o, dst) :: rest =>
    match dst with
    | none =>
      rw [propagate_reference_volume_outs]
      rw [has_outputs_cons, has_outputs_cons]
      rw [ho_propagate_outs rc d rest]
    | some child =>
      rw [propagate_reference_volume_outs]
      by_cases hs : child.dat.share = true
      · rw [if_pos hs]
        rw [has_outputs_cons, has_outputs_cons]
        dsimp only
        rw [propagate_reference_volume_dat, ho_propagate_tree rc child,
          ho_propagate_outs rc d rest]
      · rw [if_neg hs]
        rw [has_outputs_cons, has_outputs_cons]
        rw [ho_propagate_outs rc d rest]

end

theorem compute_real_volume_dat (rc : RemapCore) (flat : Bool) (t : STree) :
    (compute_real_volume rc flat t).dat.channel_map = t.dat.channel_map ∧
      (compute_real_volume rc flat t).dat.share = t.dat.share ∧
      (compute_real_volume rc flat t).dat.reference_volume = t.dat.reference_volume ∧
      (compute_real_volume rc flat t).dat.real_volume
        = (if has_outputs_list t.outs then
            get_maximum_output_volume rc t.outs
              (pa_cvolume_mute t.dat.channel_map.length) t.dat.channel_map
          else t.dat.reference_volume) := by
  unfold compute_real_volume
  by_cases ho : has_outputs_list t.outs = true
  · rw [if_neg (by simp [ho]), if_pos ho]
    obtain ⟨hsh, hcm, href, hreal⟩ := update_real_volume_dat rc flat t
      (get_maximum_output_volume rc t.outs
        (pa_cvolume_mute t.dat.channel_map.length) t.dat.channel_map)
      t.dat.channel_map
    rw [compute_real_ratios_dat, hcm, hsh, href, hreal, pa_cvolume_remap_self]
    exact ⟨rfl, rfl, rfl, rfl⟩
  · rw [if_pos (by simp [Bool.not_eq_true] at ho; simp [ho]), if_neg ho]
    obtain ⟨hsh, hcm, href, hreal⟩ := update_real_volume_dat rc flat t
      t.dat.reference_volume t.dat.channel_map
    rw [hcm, hsh, href, hreal, pa_cvolume_remap_self]
    exact ⟨rfl, rfl, rfl, rfl⟩

theorem compute_real_volume_gmax (rc : RemapCore) (flat : Bool) (t : STree)
    (acc : CVolume) (cmap : ChannelMap) :
    get_maximum_output_volume rc (compute_real_volume rc flat t).outs acc cmap
      = get_maximum_output_volume rc t.outs acc cmap := by
  unfold compute_real_volume
  split
  · exact gmax_update_real_tree rc flat t _ _ acc cmap
  · rw [gmax_real_ratios_tree, gmax_update_real_tree]

theorem update_real_volume_outs_nil (rc : RemapCore) (flat : Bool) (t : STree)
    (v : CVolume) (cm : ChannelMap) (h : t.outs = []) :
    (update_real_volume rc flat t v cm).outs = [] := by
  cases t with
  | node d outs =>
    simp only [STree.outs] at h
    subst h
    rfl

theorem compute_real_volume_outs_nil (rc : RemapCore) (flat : Bool) (t : STree)
    (h : t.outs = []) :
    (compute_real_volume rc flat t).outs = [] := by
  unfold compute_real_volume
  split
  · exact update_real_volume_outs_nil rc flat t _ _ h
  · rename_i hho
    exfalso
    cases t with
    | node d outs =>
      simp only [STree.outs] at h
      subst h
      simp [STree.outs, has_outputs_list] at hho

theorem update_reference_volume_outs_nil (rc : RemapCore) (t : STree)
    (v : CVolume) (cm : ChannelMap) (save : Bool) (h : t.outs = []) :
    ((update_reference_volume rc t v cm save).2).outs = [] := by
  cases t with
  | node d outs =>
    simp only [STree.outs] at h
    subst h
    unfold update_reference_volume
    dsimp only
    split <;> rfl

theorem propagate_reference_volume_outs_nil (rc : RemapCore) (t : STree)
    (h : t.outs = []) :
    (propagate_reference_volume rc t).outs = [] := by
  cases t with
  | node d outs =>
    simp only [STree.outs] at h
    subst h
    rfl

theorem update_reference_volume_fst (rc : RemapCore) (t : STree) (v : CVolume)
    (cm : ChannelMap) (save : Bool)
    (h : pa_cvolume_remap rc v cm t.dat.channel_map ≠ t.dat.reference_volume) :
    (update_reference_volume rc t v cm save).1 = true := by
  cases t with
  | node d outs =>
    unfold update_reference_volume
    dsimp only
    have hb : (pa_cvolume_remap rc v cm d.channel_map == d.reference_volume) = false := by
      simpa using h
    rw [if_neg (by simp [hb])]

theorem nonsharing_mem_has_outputs (outs : List (OutData × Option STree))
    (p : OutData × Option STree) (hp : p ∈ outs) (hn : nonsharing p.2 = true) :
    has_outputs_list outs = true := by
  induction outs with
  | nil => cases hp
  | cons x rest ih =>
    rcases List.mem_cons.mp hp with hx | hx
    · subst hx
      obtain ⟨o, dst⟩ := p
      rw [has_outputs_cons]
      cases dst with
      | none => simp
      | some c =>
        unfold nonsharing at hn
        simp only [Bool.or_eq_true]
        exact Or.inl (Or.inl hn)
    · obtain ⟨o, dst⟩ := x
      rw [has_outputs_cons]
      simp only [Bool.or_eq_true]
      exact Or.inr (ih hx)

theorem setSoft_ite_dat (t : STree) (b : Bool) (x y : CVolume) :
    ((if b then t.setSoft x else t.setSoft y)).dat.real_volume
        = t.dat.real_volume ∧
      ((if b then t.setSoft x else t.setSoft y)).dat.reference_volume
        = t.dat.reference_volume ∧
      ((if b then t.setSoft x else t.setSoft y)).outs = t.outs := by
  split <;> exact ⟨(setSoft_dat _ _).1, (setSoft_dat _ _).2.1, setSoft_outs _ _⟩

/-- C1: for every source that is its own volume-sharing root, with flat
volume enabled, not in passthrough, and invoked either with `volume = NULL`
(synchronize from streams) or with a volume whose derived reference differs
from the current one (so the recompute path runs): after
`pa_source_set_volume` completes, if at least one attached output is a
non-sharing stream the root's `real_volume` equals the channelwise maximum
(folded from mute with the minimum-impact remap) over all attached streams
of the stream's volume in the root's channel map; and when no outputs are
attached, `real_volume` is held equal to the reference volume. -/
theorem c1_flat_volume_real_is_max (rc : RemapCore) (s : STree)
    (volume : Option CVolume) (send_msg save : Bool)
    (hshare : s.dat.share = false)
    (hflat : s.dat.flat_volume = true)
    (hpt : s.is_passthrough = false)
    (harg : volume = none ∨ ∃ v, volume = some v ∧
      source_new_reference_volume s v ≠ s.dat.reference_volume) :
    ((∃ p ∈ s.outs, nonsharing p.2 = true) →
      (pa_source_set_volume rc s volume send_msg save).1.dat.real_volume
        = get_maximum_output_volume rc
            (pa_source_set_volume rc s volume send_msg save).1.outs
            (pa_cvolume_mute s.dat.channel_map.length) s.dat.channel_map) ∧
    (s.outs = [] →
      (pa_source_set_volume rc s volume send_msg save).1.dat.real_volume
        = (pa_source_set_volume rc s volume send_msg save).1.dat.reference_volume) := by
  have hguard : ¬ ((s.is_passthrough &&
      (match volume with
       | none => true
       | some v => !(pa_cvolume_is_norm v))) = true) := by
    rw [hpt]
    simp
  rcases harg with hv | ⟨v, hv, hchanged⟩
  · subst hv
    unfold pa_source_set_volume
    rw [if_neg hguard]
    dsimp only
    set s₁ := compute_real_volume rc s.dat.flat_volume s with hs₁
    set s₂ := (update_reference_volume rc s₁
      (pa_cvolume_merge s₁.dat.reference_volume s₁.dat.real_volume)
      s₁.dat.channel_map save).2 with hs₂
    set s₃ := compute_reference_ratios rc s₂ with hs₃
    obtain ⟨hrX, hfX, hoX⟩ := setSoft_ite_dat s₃ s₃.dat.has_set_volume_cb
      (pa_cvolume_reset s₃.dat.channel_map.length) s₃.dat.real_volume
    rw [hrX, hfX, hoX]
    obtain ⟨c1cm, c1sh, c1ref, c1real⟩ := compute_real_volume_dat rc s.dat.flat_volume s
    rw [← hs₁] at c1cm c1sh c1ref c1real
    obtain ⟨u1sh, u1cm, u1real, u1flat, u1ref⟩ := update_reference_volume_dat rc s₁
      (pa_cvolume_merge s₁.dat.reference_volume s₁.dat.real_volume)
      s₁.dat.channel_map save
    rw [← hs₂] at u1sh u1cm u1real u1flat u1ref
    have c3 := compute_reference_ratios_dat rc s₂
    rw [← hs₃] at c3
    constructor
    · rintro ⟨p, hp, hnp⟩
      have ho : has_outputs_list s.outs = true :=
        nonsharing_mem_has_outputs s.outs p hp hnp
      have hreal : s₃.dat.real_volume
          = get_maximum_output_volume rc s.outs
              (pa_cvolume_mute s.dat.channel_map.length) s.dat.channel_map := by
        rw [c3, u1real, c1real, if_pos ho]
      have houts : get_maximum_output_volume rc s₃.outs
            (pa_cvolume_mute s.dat.channel_map.length) s.dat.channel_map
          = get_maximum_output_volume rc s.outs
              (pa_cvolume_mute s.dat.channel_map.length) s.dat.channel_map := by
        rw [hs₃, gmax_reference_ratios_tree, hs₂, gmax_update_reference_tree,
          hs₁, compute_real_volume_gmax]
      rw [hreal, houts]
    · intro h0
      have hno : has_outputs_list s.outs = false := by
        rw [h0]
        simp [has_outputs_list]
      have hs₁real : s₁.dat.real_volume = s.dat.reference_volume := by
        rw [c1real, if_neg (by simp [hno])]
      have hmerge : pa_cvolume_merge s₁.dat.reference_volume s₁.dat.real_volume
          = s.dat.reference_volume := by
        rw [c1ref, hs₁real, pa_cvolume_merge_self]
      rw [c3, u1real, u1ref, pa_cvolume_remap_self, hmerge, hs₁real]
  · subst hv
    unfold pa_source_set_volume
    rw [if_neg hguard]
    dsimp only
    rw [pa_cvolume_remap_self]
    have hfst : (update_reference_volume rc s (source_new_reference_volume s v)
        s.dat.channel_map save).1 = true :=
      update_reference_volume_fst rc s _ _ save
        (by rw [pa_cvolume_remap_self]; exact hchanged)
    rw [hfst, hflat]
    simp only [if_true]
    set t₂ := propagate_reference_volume rc
      (update_reference_volume rc s (source_new_reference_volume s v)
        s.dat.channel_map save).2 with ht₂
    set s' := compute_real_volume rc true t₂ with hs'
    obtain ⟨hrX, hfX, hoX⟩ := setSoft_ite_dat s' s'.dat.has_set_volume_cb
      (pa_cvolume_reset s'.dat.channel_map.length) s'.dat.real_volume
    rw [hrX, hfX, hoX]
    obtain ⟨u1sh, u1cm, u1real, u1flat, u1ref⟩ := update_reference_volume_dat rc s
      (source_new_reference_volume s v) s.dat.channel_map save
    have hp2 := propagate_reference_volume_dat rc
      (update_reference_volume rc s (source_new_reference_volume s v)
        s.dat.channel_map save).2
    rw [← ht₂] at hp2
    obtain ⟨c1cm, c1sh, c1ref, c1real⟩ := compute_real_volume_dat rc true t₂
    rw [← hs'] at c1cm c1sh c1ref c1real
    constructor
    · rintro ⟨p, hp, hnp⟩
      have ho : has_outputs_list t₂.outs = true := by
        rw [ht₂, ho_propagate_tree, ho_update_reference_tree]
        exact nonsharing_mem_has_outputs s.outs p hp hnp
      have ht₂cm : t₂.dat.channel_map = s.dat.channel_map := by
        rw [hp2, u1cm]
      have hreal : s'.dat.real_volume
          = get_maximum_output_volume rc t₂.outs
              (pa_cvolume_mute s.dat.channel_map.length) s.dat.channel_map := by
        rw [c1real, if_pos ho, ht₂cm]
      have houts : get_maximum_output_volume rc s'.outs
            (pa_cvolume_mute s.dat.channel_map.length) s.dat.channel_map
          = get_maximum_output_volume rc t₂.outs
              (pa_cvolume_mute s.dat.channel_map.length) s.dat.channel_map := by
        rw [hs', compute_real_volume_gmax]
      rw [hreal, houts]
    · intro h0
      have h2o : t₂.outs = [] := by
        rw [ht₂]
        exact propagate_reference_volume_outs_nil rc _
          (update_reference_volume_outs_nil rc s _ _ save h0)
      have hno : has_outputs_list t₂.outs = false := by
        rw [h2o]
        simp [has_outputs_list]
      have hreal : s'.dat.real_volume = t₂.dat.reference_volume := by
        rw [c1real, if_neg (by simp [hno])]
      rw [hreal, c1ref]

/-- Witness for C1 at a concrete flat-volume root with one non-sharing
stereo stream, synchronizing from the streams (`volume = NULL`). -/
theorem c1_witness :
    sample_flat_source.dat.share = false ∧
      sample_flat_source.dat.flat_volume = true ∧
      sample_flat_source.is_passthrough = false ∧
      (((∃ p ∈ sample_flat_source.outs, nonsharing p.2 = true) →
        (pa_source_set_volume sample_rc sample_flat_source none false false).1.dat.real_volume
          = get_maximum_output_volume sample_rc
              (pa_source_set_volume sample_rc sample_flat_source none false false).1.outs
              (pa_cvolume_mute sample_flat_source.dat.channel_map.length)
              sample_flat_source.dat.channel_map) ∧
      (sample_flat_source.outs = [] →
        (pa_source_set_volume sample_rc sample_flat_source none false false).1.dat.real_volume
          = (pa_source_set_volume sample_rc sample_flat_source none false false).1.dat.reference_volume)) :=
  ⟨rfl, rfl, rfl,
    c1_flat_volume_real_is_max sample_rc sample_flat_source none false false
      rfl rfl rfl (Or.inl rfl)⟩

theorem path_set_condense_go_spec (ask : AskDbVol) :
    ∀ (rest kept : List APath),
      (∀ p ∈ kept, ∀ q, (q ∈ kept ∨ q ∈ rest) → q.id ≠ p.id →
        path_is_subset ask p q = false) →
      ∀ p ∈ path_set_condense_go ask kept rest,
        ∀ q ∈ path_set_condense_go ask kept rest,
          q.id ≠ p.id → path_is_subset ask p q = false := by
  intro rest
  induction rest with
  | nil =>
    intro kept hin p hp q hq hne
    unfold path_set_condense_go at hp hq
    exact hin p hp q (Or.inl hq) hne
  | cons r rest' ih =>
    intro kept hin
    unfold path_set_condense_go
    split
    · apply ih kept
      intro p hp q hq hne
      exact hin p hp q (hq.imp id (fun h => List.mem_cons_of_mem _ h)) hne
    · rename_i hany
      apply ih (kept ++ [r])
      intro p hp q hq hne
      rcases List.mem_append.mp hp with hp | hp
      · refine hin p hp q ?_ hne
        rcases hq with hq | hq
        · rcases List.mem_append.mp hq with hq | hq
          · exact Or.inl hq
          · simp only [List.mem_singleton] at hq
            subst hq
            exact Or.inr (by simp)
        · exact Or.inr (List.mem_cons_of_mem _ hq)
      · simp only [List.mem_singleton] at hp
        subst hp
        have hq' : q ∈ kept ++ rest' := by
          rcases hq with hq | hq
          · rcases List.mem_append.mp hq with hq | hq
            · exact List.mem_append.mpr (Or.inl hq)
            · simp only [List.mem_singleton] at hq
              subst hq
              exact absurd rfl hne
          · exact List.mem_append.mpr (Or.inr hq)
        by_contra hsub
        apply hany
        rw [List.any_eq_true]
        refine ⟨q, hq', ?_⟩
        have h1 : (q.id != p.id) = true := by
          simpa using hne
        have h2 : path_is_subset ask p q = true := by
          cases hpq : path_is_subset ask p q
          · exact absurd hpq hsub
          · rfl
        simp [h1, h2]

/-- C5: after `path_set_condense` runs on a probed path set, no path
remaining in the set is a strict subset of any other remaining path, where
the subset relation is the one the code checks: every controlled jack of the
smaller path exists in the larger with the same plugged/unplugged
availability, and walking the elements pairwise by name each element of the
smaller path is an `element_is_subset` of its counterpart. -/
theorem c5_condense_no_subset_remains (ask : AskDbVol) (paths : List APath)
    (p q : APath)
    (hp : p ∈ path_set_condense ask paths)
    (hq : q ∈ path_set_condense ask paths)
    (hne : p.id ≠ q.id) :
    path_is_subset ask p q = false := by
  unfold path_set_condense at hp hq
  split at hp
  · rename_i hlen
    rw [if_pos hlen] at hq
    match paths, hp, hq with
    | [x], hp, hq =>
      simp only [List.mem_singleton] at hp hq
      subst hp
      subst hq
      exact absurd rfl hne
  · rw [if_neg (by assumption)] at hq
    exact path_set_condense_go_spec ask paths [] (by simp) p hp q hq (Ne.symm hne)

/-- Witness for C5 at the two concrete incomparable paths: both survive
condensation and neither is a subset of the other. -/
theorem c5_witness :
    sample_path_a ∈ path_set_condense ask_none [sample_path_a, sample_path_b] ∧
      sample_path_b ∈ path_set_condense ask_none [sample_path_a, sample_path_b] ∧
      sample_path_a.id ≠ sample_path_b.id ∧
      path_is_subset ask_none sample_path_a sample_path_b = false :=
  ⟨by rw [show path_set_condense ask_none [sample_path_a, sample_path_b]
        = [sample_path_a, sample_path_b] from rfl]
      exact List.mem_cons_self _ _,
   by rw [show path_set_condense ask_none [sample_path_a, sample_path_b]
        = [sample_path_a, sample_path_b] from rfl]
      exact List.mem_cons_of_mem _ (List.mem_cons_self _ _),
   by decide,
   c5_condense_no_subset_remains ask_none [sample_path_a, sample_path_b]
     sample_path_a sample_path_b
     (by rw [show path_set_condense ask_none [sample_path_a, sample_path_b]
           = [sample_path_a, sample_path_b] from rfl]
         exact List.mem_cons_self _ _)
     (by rw [show path_set_condense ask_none [sample_path_a, sample_path_b]
           = [sample_path_a, sample_path_b] from rfl]
         exact List.mem_cons_of_mem _ (List.mem_cons_self _ _))
     (by decide)⟩

theorem volume_change_scan_spec (safety avgNc base : Nat) :
    ∀ (rl keptRev : List VolChange) (at' : Nat),
      volume_change_scan safety avgNc base rl = some (keptRev, at') →
      keptRev <:+ rl ∧ ∃ c rest, keptRev = c :: rest ∧ c.sched < at' := by
  intro rl
  induction rl with
  | nil => intro keptRev at' h; simp [volume_change_scan] at h
  | cons c earlier ih =>
    intro keptRev at' h
    unfold volume_change_scan at h
    split_ifs at h with h1 h2 h3
    · obtain ⟨rfl, rfl⟩ := Prod.mk.injEq _ _ _ _ ▸ Option.some.injEq _ _ ▸ h
      exact ⟨List.suffix_refl _, c, earlier, rfl, h2⟩
    · obtain ⟨hs, hx⟩ := ih keptRev at' h
      exact ⟨hs.trans (List.suffix_cons c earlier), hx⟩
    · obtain ⟨rfl, rfl⟩ := Prod.mk.injEq _ _ _ _ ▸ Option.some.injEq _ _ ▸ h
      exact ⟨List.suffix_refl _, c, earlier, rfl, h3⟩
    · obtain ⟨hs, hx⟩ := ih keptRev at' h
      exact ⟨hs.trans (List.suffix_cons c earlier), hx⟩

theorem volume_change_push_sorted (s : VolChangeState) (base : Nat)
    (rv sv : CVolume)
    (h : List.Chain' (fun a b => a.sched < b.sched) s.changes) :
    List.Chain' (fun a b => a.sched < b.sched)
      (pa_source_volume_change_push s base rv sv).changes := by
  unfold pa_source_volume_change_push
  dsimp only
  split
  · exact h
  · rcases hscan : volume_change_scan s.safety_margin
        (pa_cvolume_avg (pa_sw_cvolume_divide rv sv)) base s.changes.reverse
      with _ | ⟨keptRev, at'⟩
    · simp only [hscan]
      exact List.chain'_singleton _
    · simp only [hscan]
      obtain ⟨hsuf, c, rest, rfl, hlt⟩ :=
        volume_change_scan_spec _ _ _ _ _ _ hscan
      have hpre : (c :: rest).reverse <+: s.changes := by
        rw [← List.reverse_reverse s.changes]
        exact List.reverse_prefix.mpr hsuf
      have hchain : List.Chain' (fun a b => a.sched < b.sched) (c :: rest).reverse :=
        h.prefix hpre
      rw [List.chain'_append]
      refine ⟨hchain, List.chain'_singleton _, ?_⟩
      intro x hx y hy
      rw [List.getLast?_reverse, List.head?_cons, Option.mem_def, Option.some_inj] at hx
      rw [List.head?_cons, Option.mem_def, Option.some_inj] at hy
      subst hx
      subst hy
      exact hlt

theorem run_pushes_sorted (pushes : List (Nat × CVolume × CVolume)) :
    ∀ (s : VolChangeState),
      List.Chain' (fun a b => a.sched < b.sched) s.changes →
      List.Chain' (fun a b => a.sched < b.sched) (run_pushes s pushes).changes := by
  induction pushes with
  | nil => intro s h; exact h
  | cons p rest ih =>
    intro s h
    exact ih _ (volume_change_push_sorted s p.1 p.2.1 p.2.2 h)

theorem run_applies_prefix (ticks : List Nat) :
    ∀ (s : VolChangeState),
      (run_applies s ticks).2 ++ (run_applies s ticks).1.changes = s.changes := by
  induction ticks with
  | nil => intro s; simp [run_applies]
  | cons now rest ih =>
    intro s
    unfold run_applies
    simp only [List.append_assoc, ih]
    unfold pa_source_volume_change_apply
    simp [List.takeWhile_append_dropWhile]

/-- C2, counterexample: safety margin 10 µs; pushing a change with average
volume 5 at base time 100 schedules it at 110; pushing a louder change at
base time 103 schedules it at 113 (the push rule only adds the margin to the
new change's own time, part_000 lines 2682-2684); one apply tick commits
both, 3 µs apart — closer than the safety margin. -/
theorem c2_counterexample :
    (run_applies
        (run_pushes (VolChangeState.mk 10 [] [0])
          [(100, ([5], [65536])), (103, ([8], [65536]))])
        [200]).2.map VolChange.sched = [110, 113] ∧
      ¬ List.Chain' (fun a b => a.sched + 10 ≤ b.sched)
        (run_applies
          (run_pushes (VolChangeState.mk 10 [] [0])
            [(100, ([5], [65536])), (103, ([8], [65536]))])
          [200]).2 := by
  constructor
  · rfl
  · have hl : (run_applies
        (run_pushes (VolChangeState.mk 10 [] [0])
          [(100, ([5], [65536])), (103, ([8], [65536]))])
        [200]).2 = [VolChange.mk 110 [5], VolChange.mk 113 [8]] := rfl
    rw [hl]
    simp only [List.chain'_cons, List.chain'_singleton, and_true]
    omega

/-- C2, amended: for every sequence of `pa_source_volume_change_push` calls
followed by `pa_source_volume_change_apply` ticks on a source with deferred
volume (starting from a sorted — e.g. empty — pending list), the pending
hardware-volume changes are applied in monotonically non-decreasing (in fact
strictly increasing) scheduled-time order; two successively applied changes
are, however, only guaranteed a strictly positive gap, not one of at least
`volume_change_safety_margin`. -/
theorem c2_apply_order_amended (s₀ : VolChangeState)
    (pushes : List (Nat × CVolume × CVolume)) (ticks : List Nat)
    (h₀ : List.Chain' (fun a b => a.sched < b.sched) s₀.changes) :
    List.Chain' (fun a b => a.sched < b.sched)
      (run_applies (run_pushes s₀ pushes) ticks).2 := by
  have hs := run_pushes_sorted pushes s₀ h₀
  have hp := run_applies_prefix ticks (run_pushes s₀ pushes)
  exact hs.prefix ⟨_, hp⟩

/-- Witness for the amended C2 at the counterexample's concrete trace: the
two changes are applied in strictly increasing scheduled-time order. -/
theorem c2_witness :
    List.Chain' (fun a b => a.sched < b.sched)
        (VolChangeState.mk 10 [] [0]).changes ∧
      List.Chain' (fun a b => a.sched < b.sched)
        (run_applies
          (run_pushes (VolChangeState.mk 10 [] [0])
            [(100, ([5], [65536])), (103, ([8], [65536]))])
          [200]).2 :=
  ⟨List.chain'_nil,
    c2_apply_order_amended (VolChangeState.mk 10 [] [0])
      [(100, ([5], [65536])), (103, ([8], [65536]))] [200] List.chain'_nil⟩

/-- C8, counterexample: with no outstanding request and a new request of 0
bytes (the documented "maximum rewind request" encoding, part_000 line
6624), `pa_sink_input_request_rewind` with rewrite sets the pending amount
to `min(sink.max_rewind + lbq, playing_for)` — here 50 — not to the maximum
of outstanding and new capped at `playing_for`, which would be 0. -/
theorem c8_counterexample :
    (pa_sink_input_request_rewind
        (RewindInput.mk false 0 false false 50 0 100 false (fun n => n) (fun n => n))
        0 true false false).1.rewrite_nbytes = 50 ∧
      ¬ (50 : Nat) = min (max 0 0) 50 := by
  constructor
  · rfl
  · decide

/-- C8, amended: for every non-corked sink input with no outstanding
flush-everything request (`rewrite_nbytes ≠ (size_t)-1`) and a combined
amount `max(rewrite_nbytes, nbytes)` that is nonzero (zero encodes a
maximum-rewind request) and below the sentinel,
`pa_sink_input_request_rewind` with rewrite true sets the pending rewrite
amount to that maximum capped at `thread_info.playing_for`, then translates
the amount into the sink's sample-spec domain and calls the sink's
`request_rewind` with it reduced by the render-queue length (floored at
zero). -/
theorem c8_request_rewind_amended (i : RewindInput) (nbytes₀ : Nat)
    (flush dont_rewind_render : Bool)
    (hc : i.corked = false)
    (hout : i.rewrite_nbytes ≠ SIZE_MAX)
    (hnz : max i.rewrite_nbytes nbytes₀ ≠ 0)
    (hmax : max i.rewrite_nbytes nbytes₀ < SIZE_MAX) :
    (pa_sink_input_request_rewind i nbytes₀ true flush dont_rewind_render).1.rewrite_nbytes
        = min (max i.rewrite_nbytes nbytes₀) i.playing_for ∧
      (pa_sink_input_request_rewind i nbytes₀ true flush dont_rewind_render).2
        = some ((if i.has_resampler then
              i.res_result (min (max i.rewrite_nbytes nbytes₀) i.playing_for)
            else min (max i.rewrite_nbytes nbytes₀) i.playing_for)
          - i.render_memblockq_length) := by
  have hmin : (if max i.rewrite_nbytes nbytes₀ > i.playing_for then i.playing_for
      else max i.rewrite_nbytes nbytes₀)
        = min (max i.rewrite_nbytes nbytes₀) i.playing_for := by
    rcases Nat.lt_or_ge i.playing_for (max i.rewrite_nbytes nbytes₀) with h | h
    · rw [if_pos h, Nat.min_eq_right (Nat.le_of_lt h)]
    · rw [if_neg (by omega), Nat.min_eq_left h]
  have hne : min (max i.rewrite_nbytes nbytes₀) i.playing_for ≠ SIZE_MAX := by
    have := Nat.min_le_left (max i.rewrite_nbytes nbytes₀) i.playing_for
    omega
  unfold pa_sink_input_request_rewind
  simp only [hc, Bool.false_eq_true, if_false, hnz, hout, ne_eq, not_false_eq_true,
    if_true, hmin, hne]
  refine ⟨by split <;> split <;> rfl, ?_⟩
  split <;> split <;> first
    | rfl
    | (dsimp only; simp only [Option.some.injEq]; omega)

/-- Witness for the amended C8: outstanding 10, new request 30, playing_for
50, render queue 7 bytes, no resampler: the pending amount becomes 30 and
the sink is asked to rewind 23 bytes. -/
theorem c8_witness :
    (RewindInput.mk false 10 false false 50 7 100 false (fun n => n) (fun n => n)).corked
        = false ∧
      (pa_sink_input_request_rewind
          (RewindInput.mk false 10 false false 50 7 100 false (fun n => n) (fun n => n))
          30 true false false).1.rewrite_nbytes = min (max 10 30) 50 ∧
      (pa_sink_input_request_rewind
          (RewindInput.mk false 10 false false 50 7 100 false (fun n => n) (fun n => n))
          30 true false false).2 = some ((if false = true then 0 else min (max 10 30) 50) - 7) :=
  ⟨rfl, by
    have h := c8_request_rewind_amended
      (RewindInput.mk false 10 false false 50 7 100 false (fun n => n) (fun n => n))
      30 false false rfl (by decide) (by decide) (by decide)
    simpa using h⟩

/-- Witness for the amended C4 at a concrete two-element path: the dB-less
first MERGE element keeps MERGE and the later dB-capable MERGE element is
zeroed. -/
theorem c4_witness :
    ((ProbeElem.mk .merge false .ignore 0 64).volume_use = .merge ∧
        (ProbeElem.mk .merge false .ignore 0 64).has_dB = false) ∧
      (path_probe_elements false (ProbePathFlags.mk false false false 0 0)
          ([] ++ ProbeElem.mk .merge false .ignore 0 64
            :: [ProbeElem.mk .merge true .ignore 0 64])).2
        = [] ++ ProbeElem.mk .merge false .ignore 0 64
            :: [ProbeElem.mk .merge true .ignore 0 64].map probe_demote :=
  ⟨⟨rfl, rfl⟩,
    c4_probe_demotes_later_merge [] [ProbeElem.mk .merge true .ignore 0 64]
      (ProbeElem.mk .merge false .ignore 0 64)
      (ProbePathFlags.mk false false false 0 0) rfl rfl (by simp) rfl rfl⟩

end Pulse


